import Mathlib

/-!
# Verification of the car-sales ETL pipeline's KPI computation

Shallow embedding of the two `etl_pipeline.py` variants
(`src/Car Sales Project/VSCode, SQL & Python/Python/etl_pipeline.py` and
`src/VSCode, SQL & Python/Python/etl_pipeline.py`).

A pandas DataFrame obtained from a SQL view is modelled as an `Extract`:
an ordered list of column names plus a list of rows, each row an ordered
list of values aligned with the columns.  Cell values are numbers
(Python ints/floats, modelled as `ℚ`) or strings.  Floating-point
arithmetic is abstracted to exact rational arithmetic; `round(x, 2)` is
modelled as round-half-to-even on the exact rational, matching Python's
documented rounding mode.  Python exceptions (KeyError on a missing
column, ValueError from `float` applied to a non-numeric string,
TypeError from summing or comparing mixed-type object columns) are
modelled as `Except.error`.  Two deliberate abstractions: a string whose
text happens to parse as a float still counts as non-numeric for
`float(...)`, and a column counts as numeric-typed for
`select_dtypes(include="number")` iff every cell in it is a number.
-/

/-- A cell value of an extract: numeric (int/float, as `ℚ`) or string. -/
inductive Value where
  | num (q : ℚ)
  | str (s : String)
deriving DecidableEq

/-- A named tabular extract: ordered column names and rows of values,
each row aligned positionally with the column list. -/
structure Extract where
  cols : List String
  rows : List (List Value)
deriving DecidableEq

/-- The empty DataFrame `pd.DataFrame()`. -/
def emptyExtract : Extract := ⟨[], []⟩

/-- Index of the first column with the given name (pandas column lookup). -/
def colIdx : List String → String → Option Nat
  | [], _ => none
  | c :: rest, n => if c = n then some 0 else (colIdx rest n).map (· + 1)

/-- The value of row `r` at column `c` of extract `e`; `none` when the
column is absent or the row is too short to reach it. -/
def cellAt (e : Extract) (r : List Value) (c : String) : Option Value :=
  (colIdx e.cols c).bind fun i => r.get? i

/-- The column `c` of `e` as a list of (possibly missing) cells, one per row. -/
def colCells (e : Extract) (c : String) : List (Option Value) :=
  e.rows.map fun r => cellAt e r c

/-- Emptiness test `df.empty`: true iff the DataFrame has no rows or no columns. -/
def Extract.isEmpty (e : Extract) : Bool :=
  e.rows.isEmpty || e.cols.isEmpty

/-- Well-formedness of an extract: every row has one value per column.
Every DataFrame produced by pandas satisfies this. -/
def Extract.WF (e : Extract) : Prop :=
  ∀ r ∈ e.rows, r.length = e.cols.length

instance (e : Extract) : Decidable e.WF :=
  inferInstanceAs (Decidable (∀ r ∈ e.rows, r.length = e.cols.length))

/-- Round-half-to-even to an integer (Python's `round` on exact values). -/
def roundHalfEven (q : ℚ) : ℤ :=
  if q < ⌊q⌋ + 1/2 then ⌊q⌋
  else if (⌊q⌋ : ℚ) + 1/2 < q then ⌊q⌋ + 1
  else if ⌊q⌋ % 2 = 0 then ⌊q⌋ else ⌊q⌋ + 1

/-- Python's `round(x, 2)` on the exact rational value. -/
def round2 (q : ℚ) : ℚ := (roundHalfEven (q * 100) : ℚ) / 100

/-- Unwrap an `Option`, raising the given Python exception when absent. -/
def exOfOpt (o : Option α) (msg : String) : Except String α :=
  match o with
  | some a => .ok a
  | none => .error msg

/-- Value of an `Except`, with `0` for the error case. -/
def exOrZero (x : Except String ℚ) : ℚ :=
  match x with
  | .ok q => q
  | .error _ => 0

/-- Decidable equality of fallible results, for concrete evaluation. -/
instance [DecidableEq ε] [DecidableEq α] : DecidableEq (Except ε α) := fun x y =>
  match x, y with
  | .ok a, .ok b =>
      if h : a = b then isTrue (by rw [h]) else isFalse fun hh => h (Except.ok.inj hh)
  | .error a, .error b =>
      if h : a = b then isTrue (by rw [h]) else isFalse fun hh => h (Except.error.inj hh)
  | .ok _, .error _ => isFalse fun hh => Except.noConfusion hh
  | .error _, .ok _ => isFalse fun hh => Except.noConfusion hh

/-! ## Alias reconciliation (the "defensive renames" at the top of `compute_kpis`)

`df = sales_df.copy()`;
`if "price" not in df.columns and "total_revenue" in df.columns: df["price"] = df["total_revenue"]`;
`if "customer_name" not in df.columns and "customer" in df.columns: df["customer_name"] = df["customer"]`.
Assigning a column copies it and appends the new name at the end of the
column order. -/

/-- Column assignment `e[dst] = e[src]`: append column `dst` holding a copy of column `src`.
The `getD` default is unreachable on well-formed extracts with `src` present. -/
def copyCol (e : Extract) (src dst : String) : Extract :=
  ⟨e.cols ++ [dst], e.rows.map fun r => r ++ [(cellAt e r src).getD (Value.num 0)]⟩

/-- The two defensive renames applied to the sales extract. -/
def reconcile (s : Extract) : Extract :=
  let e1 := if "price" ∉ s.cols ∧ "total_revenue" ∈ s.cols then
      copyCol s "total_revenue" "price" else s
  if "customer_name" ∉ e1.cols ∧ "customer" ∈ e1.cols then
    copyCol e1 "customer" "customer_name" else e1

/-- Rename the occurrences of column `src` to `dst`, keeping the data.
Used to state the alias-equivalence claim. -/
def renameCol (e : Extract) (src dst : String) : Extract :=
  ⟨e.cols.map fun c => if c = src then dst else c, e.rows⟩

/-! ## Sales-derived KPIs

`total_revenue = float(df["price"].sum()) if not df.empty else 0.0`;
`total_orders = int(len(df))`;
`avg_order_value = float(total_revenue / total_orders) if total_orders > 0 else 0.0`;
`avg_revenue_per_customer = float(df.groupby("customer_name")["price"].sum().mean())`
when `"customer_name" in df.columns and not df.empty`, else `0.0`. -/

/-- Summation `float(series.sum())`: sum of a column's cells; a missing cell or a
string cell makes the subsequent `float` conversion fail. -/
def sumCells : List (Option Value) → Except String ℚ
  | [] => .ok 0
  | some (Value.num q) :: rest =>
      match sumCells rest with
      | .ok s => .ok (q + s)
      | .error e => .error e
  | _ :: _ => .error "float: non-numeric data in column"

/-- Column sum `float(df[c].sum())`: KeyError when the column is absent. -/
def colNumSum (e : Extract) (c : String) : Except String ℚ :=
  if c ∈ e.cols then sumCells (colCells e c) else .error "KeyError"

/-- Align group keys with numeric prices row by row; any missing cell or
non-numeric price makes the grouped sum (and its `float`) fail. -/
def pairUp : List (Option Value) → List (Option Value) → Except String (List (Value × ℚ))
  | [], [] => .ok []
  | some k :: ks, some (Value.num p) :: ps =>
      match pairUp ks ps with
      | .ok rest => .ok ((k, p) :: rest)
      | .error e => .error e
  | _, _ => .error "float: non-numeric data in group"

/-- Sum of the prices whose row has group key `k`. -/
def groupSum (pairs : List (Value × ℚ)) (k : Value) : ℚ :=
  ((pairs.filter fun p => decide (p.1 = k)).map Prod.snd).sum

/-- Grouped mean `float(df.groupby("customer_name")["price"].sum().mean())`: the mean,
over the distinct `customer_name` values, of the per-group `price` sums. -/
def groupMeanExc (e : Extract) : Except String ℚ :=
  if "price" ∈ e.cols then
    match pairUp (colCells e "customer_name") (colCells e "price") with
    | .ok pairs =>
        .ok (((pairs.map Prod.fst).dedup.map (groupSum pairs)).sum /
          ((pairs.map Prod.fst).dedup.length : ℚ))
    | .error e => .error e
  else .error "KeyError: price"

/-- The four sales-extract KPIs of `compute_kpis`, in source order:
`(total_revenue, total_orders, avg_order_value, avg_revenue_per_customer)`,
computed on the already-reconciled sales extract. -/
def salesPart (df : Extract) : Except String (ℚ × ℕ × ℚ × ℚ) :=
  match (if df.isEmpty then .ok 0 else colNumSum df "price" : Except String ℚ) with
  | .error e => .error e
  | .ok total_revenue =>
    let total_orders := df.rows.length
    let avg_order_value := if 0 < total_orders then total_revenue / (total_orders : ℚ) else 0
    match (if "customer_name" ∈ df.cols ∧ ¬df.isEmpty then groupMeanExc df else .ok 0 :
        Except String ℚ) with
    | .error e => .error e
    | .ok avg_revenue_per_customer =>
        .ok (total_revenue, total_orders, avg_order_value, avg_revenue_per_customer)

/-! ## Top-customer KPIs

```
top_customer_name = None; top_customer_revenue = 0.0
if not top_customers_df.empty:
    rcol = None
    for c in ["total_revenue", "total_spent", "total_revenue"]:
        if c in top_customers_df.columns: rcol = c; break
    if rcol is None:
        numeric_cols = top_customers_df.select_dtypes(include="number").columns
        rcol = numeric_cols[0] if len(numeric_cols) > 0 else None
    top_customer_name = top_customers_df.iloc[0]["customer_name"]
        if "customer_name" in top_customers_df.columns else top_customers_df.iloc[0].iloc[0]
    top_customer_revenue = float(top_customers_df.iloc[0][rcol]) if rcol is not None else 0.0
```
-/

/-- Does this cell hold a number? -/
def cellNumB : Option Value → Bool
  | some (Value.num _) => true
  | _ => false

/-- Does this cell hold a string? -/
def cellStrB : Option Value → Bool
  | some (Value.str _) => true
  | _ => false

/-- Numeric fallback `select_dtypes(include="number").columns[0]`: the first column, in
column order, all of whose cells are numeric. -/
def firstNumericCol (t : Extract) : Option String :=
  t.cols.find? fun c => (colCells t c).all cellNumB

/-- The revenue-column resolution loop of `compute_kpis`, written with the
source's literal (duplicated) candidate list, followed by the
numeric-column fallback. -/
def selectRcol (t : Extract) : Option String :=
  if "total_revenue" ∈ t.cols then some "total_revenue"
  else if "total_spent" ∈ t.cols then some "total_spent"
  else if "total_revenue" ∈ t.cols then some "total_revenue"
  else firstNumericCol t

/-- Cell read `float(row[c])`: KeyError when the column (or cell) is absent,
ValueError when the value is a string. -/
def getNumCell (e : Extract) (r : List Value) (c : String) : Except String ℚ :=
  match cellAt e r c with
  | some (Value.num q) => .ok q
  | some (Value.str _) => .error "ValueError: could not convert string to float"
  | none => .error "KeyError"

/-- The `(top_customer_name, top_customer_revenue)` computation of
`compute_kpis` on the `top_customers_df` extract. -/
def topPart (t : Extract) : Except String (Option Value × ℚ) :=
  if t.isEmpty then .ok (none, 0)
  else
    let rcol := selectRcol t
    match exOfOpt (t.rows.get? 0) "IndexError" with
    | .error e => .error e
    | .ok row0 =>
      match (if "customer_name" ∈ t.cols then exOfOpt (cellAt t row0 "customer_name") "KeyError"
          else exOfOpt (row0.get? 0) "IndexError" : Except String Value) with
      | .error e => .error e
      | .ok nm =>
        match (match rcol with | none => .ok 0 | some c => getNumCell t row0 c :
            Except String ℚ) with
        | .error e => .error e
        | .ok rev => .ok (some nm, rev)

/-! ## Monthly growth

```
monthly_growth_pct = 0.0
try:
    mdf = monthly_df.sort_values(["year", "month"])
        if ("year" in monthly_df.columns and "month" in monthly_df.columns) else monthly_df
    if not mdf.empty:
        last = float(mdf.iloc[-1]["total_revenue"])
        prev = float(mdf.iloc[-2]["total_revenue"]) if len(mdf) > 1 else last
        if prev != 0: monthly_growth_pct = (last - prev) / prev * 100
        else: monthly_growth_pct = 0.0
except Exception as e:
    log.warning(...)
```
`sort_values` sorts ascending and raises TypeError when it must compare a
number with a string, which the `except` turns into the `0.0` default. -/

/-- Comparison of two cell values as Python orders them; the mixed
number/string cases are unreachable under the homogeneity check below
(Python would raise TypeError there) and are given an arbitrary order. -/
def vleB : Value → Value → Bool
  | .num x, .num y => decide (x ≤ y)
  | .str a, .str b => decide (a ≤ b)
  | .num _, .str _ => true
  | .str _, .num _ => false

/-- Lexicographic comparison of `(year, month)` sort keys. -/
def keyLeB (k1 k2 : Value × Value) : Bool :=
  if k1.1 = k2.1 then vleB k1.2 k2.2 else vleB k1.1 k2.1

/-- The `(year, month)` sort key of a row; the defaults are unreachable
under the homogeneity check (every cell present and typed). -/
def rowKey (e : Extract) (r : List Value) : Value × Value :=
  ((cellAt e r "year").getD (Value.num 0), (cellAt e r "month").getD (Value.num 0))

/-- Row order used by `sort_values(["year", "month"])`. -/
def rowLe (e : Extract) (r1 r2 : List Value) : Prop :=
  keyLeB (rowKey e r1) (rowKey e r2) = true

instance (e : Extract) : DecidableRel (rowLe e) :=
  fun r1 r2 => inferInstanceAs (Decidable (keyLeB (rowKey e r1) (rowKey e r2) = true))

/-- Sorting `monthly_df.sort_values(["year", "month"])`: stable ascending sort. -/
def sortRows (e : Extract) : Extract :=
  ⟨e.cols, List.insertionSort (rowLe e) e.rows⟩

/-- A sortable column: every cell present and all of one type (mixed
object columns make pandas comparisons raise TypeError). -/
def colComparable (e : Extract) (c : String) : Bool :=
  (colCells e c).all cellNumB || (colCells e c).all cellStrB

/-- The tail of the `try` block computing `monthly_growth_pct`, applied to
the already-selected (possibly sorted) `mdf`: read `last` and `prev` and
form the growth percentage. -/
def growthFrom (mdf : Extract) : Except String ℚ :=
  if mdf.isEmpty then .ok 0
  else
    match exOfOpt mdf.rows.getLast? "IndexError" with
    | .error e => .error e
    | .ok lastRow =>
      match getNumCell mdf lastRow "total_revenue" with
      | .error e => .error e
      | .ok last =>
        match (if 1 < mdf.rows.length then
            (match exOfOpt (mdf.rows.get? (mdf.rows.length - 2)) "IndexError" with
             | .error e => .error e
             | .ok prevRow => getNumCell mdf prevRow "total_revenue")
          else .ok last : Except String ℚ) with
        | .error e => .error e
        | .ok prev =>
          if prev ≠ 0 then .ok ((last - prev) / prev * 100) else .ok 0

/-- The body of the `try` block computing `monthly_growth_pct`;
an `error` result is what the `except` clause catches. -/
def monthlyGrowthExc (mo : Extract) : Except String ℚ :=
  match (if "year" ∈ mo.cols ∧ "month" ∈ mo.cols then
      (if colComparable mo "year" && colComparable mo "month" then .ok (sortRows mo)
       else .error "TypeError: unorderable types in sort_values")
    else .ok mo : Except String Extract) with
  | .error e => .error e
  | .ok mdf => growthFrom mdf

/-! ## The KPI record and `compute_kpis` -/

/-- The single-row KPI result of one pipeline run. -/
structure KPIRecord where
  total_revenue : ℚ
  total_orders : ℕ
  avg_order_value : ℚ
  avg_revenue_per_customer : ℚ
  top_customer_name : Option Value
  top_customer_revenue : ℚ
  monthly_growth_pct : ℚ
deriving DecidableEq

/-- Function `compute_kpis` of `src/Car Sales Project/VSCode, SQL & Python/Python/etl_pipeline.py`:
reconcile the sales extract, compute the sales KPIs, the top-customer
fields and the (failure-absorbed) monthly growth, and round the monetary
and percentage outputs to 2 decimal places when packaging the record. -/
def compute_kpis (sales_df top_customers_df monthly_df : Extract) :
    Except String KPIRecord :=
  match salesPart (reconcile sales_df) with
  | .error e => .error e
  | .ok sp =>
    match topPart top_customers_df with
    | .error e => .error e
    | .ok top =>
      let monthly_growth_pct := exOrZero (monthlyGrowthExc monthly_df)
      .ok { total_revenue := round2 sp.1
            total_orders := sp.2.1
            avg_order_value := round2 sp.2.2.1
            avg_revenue_per_customer := round2 sp.2.2.2
            top_customer_name := top.1
            top_customer_revenue := round2 top.2
            monthly_growth_pct := round2 monthly_growth_pct }

/-! ## The second pipeline variant

`src/VSCode, SQL & Python/Python/etl_pipeline.py` carries its own copy of
`compute_kpis` (lines 104-167).  Its statements match the first variant's
statement for statement (only comments and the docstring differ), so its
embedding repeats the same stages over the shared pandas model. -/

/-- The defensive renames of the second variant (lines 112-116). -/
def reconcile_v2 (s : Extract) : Extract :=
  let e1 := if "price" ∉ s.cols ∧ "total_revenue" ∈ s.cols then
      copyCol s "total_revenue" "price" else s
  if "customer_name" ∉ e1.cols ∧ "customer" ∈ e1.cols then
    copyCol e1 "customer" "customer_name" else e1

/-- The sales KPIs of the second variant (lines 118-123). -/
def salesPart_v2 (df : Extract) : Except String (ℚ × ℕ × ℚ × ℚ) :=
  match (if df.isEmpty then .ok 0 else colNumSum df "price" : Except String ℚ) with
  | .error e => .error e
  | .ok total_revenue =>
    let total_orders := df.rows.length
    let avg_order_value := if 0 < total_orders then total_revenue / (total_orders : ℚ) else 0
    match (if "customer_name" ∈ df.cols ∧ ¬df.isEmpty then groupMeanExc df else .ok 0 :
        Except String ℚ) with
    | .error e => .error e
    | .ok avg_revenue_per_customer =>
        .ok (total_revenue, total_orders, avg_order_value, avg_revenue_per_customer)

/-- The top-customer fields of the second variant (lines 125-141), with
the same literal candidate list `["total_revenue", "total_spent", "total_revenue"]`. -/
def topPart_v2 (t : Extract) : Except String (Option Value × ℚ) :=
  if t.isEmpty then .ok (none, 0)
  else
    let rcol := selectRcol t
    match exOfOpt (t.rows.get? 0) "IndexError" with
    | .error e => .error e
    | .ok row0 =>
      match (if "customer_name" ∈ t.cols then exOfOpt (cellAt t row0 "customer_name") "KeyError"
          else exOfOpt (row0.get? 0) "IndexError" : Except String Value) with
      | .error e => .error e
      | .ok nm =>
        match (match rcol with | none => .ok 0 | some c => getNumCell t row0 c :
            Except String ℚ) with
        | .error e => .error e
        | .ok rev => .ok (some nm, rev)

/-- The last/prev/growth tail of the second variant (lines 147-153). -/
def growthFrom_v2 (mdf : Extract) : Except String ℚ :=
  if mdf.isEmpty then .ok 0
  else
    match exOfOpt mdf.rows.getLast? "IndexError" with
    | .error e => .error e
    | .ok lastRow =>
      match getNumCell mdf lastRow "total_revenue" with
      | .error e => .error e
      | .ok last =>
        match (if 1 < mdf.rows.length then
            (match exOfOpt (mdf.rows.get? (mdf.rows.length - 2)) "IndexError" with
             | .error e => .error e
             | .ok prevRow => getNumCell mdf prevRow "total_revenue")
          else .ok last : Except String ℚ) with
        | .error e => .error e
        | .ok prev =>
          if prev ≠ 0 then .ok ((last - prev) / prev * 100) else .ok 0

/-- The guarded monthly-growth computation of the second variant (lines 144-155). -/
def monthlyGrowthExc_v2 (mo : Extract) : Except String ℚ :=
  match (if "year" ∈ mo.cols ∧ "month" ∈ mo.cols then
      (if colComparable mo "year" && colComparable mo "month" then .ok (sortRows mo)
       else .error "TypeError: unorderable types in sort_values")
    else .ok mo : Except String Extract) with
  | .error e => .error e
  | .ok mdf => growthFrom_v2 mdf

/-- Function `compute_kpis` of `src/VSCode, SQL & Python/Python/etl_pipeline.py`. -/
def compute_kpis_v2 (sales_df top_customers_df monthly_df : Extract) :
    Except String KPIRecord :=
  match salesPart_v2 (reconcile_v2 sales_df) with
  | .error e => .error e
  | .ok sp =>
    match topPart_v2 top_customers_df with
    | .error e => .error e
    | .ok top =>
      let monthly_growth_pct := exOrZero (monthlyGrowthExc_v2 monthly_df)
      .ok { total_revenue := round2 sp.1
            total_orders := sp.2.1
            avg_order_value := round2 sp.2.2.1
            avg_revenue_per_customer := round2 sp.2.2.2
            top_customer_name := top.1
            top_customer_revenue := round2 top.2
            monthly_growth_pct := round2 monthly_growth_pct }

/-! ## The orchestrator `run_pipeline`

For each of the six named views the fetch either yields an extract or
fails; a failure is logged and replaced by `pd.DataFrame()`.  All six
(possibly empty) extracts are then exported, and finally `compute_kpis`
runs on the three named inputs (with empty-extract defaults from
`dfs.get(...)`) and its record is exported.  The fetch outcomes are the
model's parameter; the returned pair is (raw exports in order, result of
the KPI stage — the `kpi_summary` export happens iff it is `ok`). -/

/-- The six view names of `run_pipeline`, in its dict's insertion order. -/
def view_names : List String :=
  ["vw_sales_export", "summary_revenue_country", "summary_top_customers",
   "summary_deal_size", "vw_monthly_revenue", "vw_null_summary"]

/-- The extract actually stored in `dfs` for one view: the fetched data,
or the empty DataFrame when the fetch failed. -/
def fetchEff (fetch : String → Except String Extract) (k : String) : Extract :=
  match fetch k with
  | .ok d => d
  | .error _ => emptyExtract

/-- Orchestrator `run_pipeline`, with the per-view fetch outcomes as input. -/
def run_pipeline (fetch : String → Except String Extract) :
    List (String × Extract) × Except String KPIRecord :=
  let dfs := view_names.map fun k => (k, fetchEff fetch k)
  let getDf := fun k => ((dfs.lookup k).getD emptyExtract)
  (dfs, compute_kpis (getDf "vw_sales_export") (getDf "summary_top_customers")
    (getDf "vw_monthly_revenue"))

/-! ## General lemmas about the embedding -/

/-- Inversion principle for a successful `compute_kpis` run: the sales and
top-customer stages succeeded and the record is assembled (with rounding)
from their outputs and from the failure-absorbed monthly growth. -/
theorem compute_kpis_ok_iff (s t m : Extract) (r : KPIRecord) :
    compute_kpis s t m = .ok r ↔
      ∃ sp top, salesPart (reconcile s) = .ok sp ∧ topPart t = .ok top ∧
        r = ⟨round2 sp.1, sp.2.1, round2 sp.2.2.1, round2 sp.2.2.2, top.1, round2 top.2,
          round2 (exOrZero (monthlyGrowthExc m))⟩ := by
  unfold compute_kpis
  cases hsp : salesPart (reconcile s) with
  | error e => simp [hsp]
  | ok sp =>
    cases htp : topPart t with
    | error e => simp [hsp, htp]
    | ok top =>
      constructor
      · intro h
        exact ⟨sp, top, rfl, rfl, by cases (Except.ok.inj h); rfl⟩
      · rintro ⟨sp', top', hsp', htp', hr⟩
        cases (Except.ok.inj hsp'); cases (Except.ok.inj htp')
        rw [hr]

/-- Python's `round` fixes `0`. -/
theorem round2_zero : round2 0 = 0 := by
  norm_num [round2, roundHalfEven]

/-- Rounding preserves non-negativity. -/
theorem round2_nonneg (q : ℚ) (h : 0 ≤ q) : 0 ≤ round2 q := by
  have hf : (0 : ℤ) ≤ ⌊q * 100⌋ := Int.floor_nonneg.mpr (by positivity)
  unfold round2 roundHalfEven
  split_ifs <;>
    exact div_nonneg (by exact_mod_cast (by omega : (0:ℤ) ≤ _)) (by norm_num)

/-- Copying a column keeps the row count. -/
theorem copyCol_rows_length (e : Extract) (src dst : String) :
    (copyCol e src dst).rows.length = e.rows.length := by
  simp [copyCol]

/-- Copying a column keeps emptiness when the extract already has a column. -/
theorem copyCol_isEmpty (e : Extract) (src dst : String) (h : e.cols ≠ []) :
    (copyCol e src dst).isEmpty = e.isEmpty := by
  cases hr : e.rows <;> cases hc : e.cols <;>
    simp_all [copyCol, Extract.isEmpty]

/-- The defensive renames do not change the number of rows. -/
theorem reconcile_rows_length (s : Extract) :
    (reconcile s).rows.length = s.rows.length := by
  unfold reconcile
  by_cases h1 : "price" ∉ s.cols ∧ "total_revenue" ∈ s.cols <;>
      simp only [h1, if_true, if_false, reduceIte] <;>
    split_ifs <;> simp [copyCol_rows_length]

/-- The defensive renames do not change emptiness. -/
theorem reconcile_isEmpty (s : Extract) :
    (reconcile s).isEmpty = s.isEmpty := by
  unfold reconcile
  by_cases h1 : "price" ∉ s.cols ∧ "total_revenue" ∈ s.cols
  · have hne : s.cols ≠ [] := fun hEq => by
      rw [hEq] at h1; exact absurd h1.2 (List.not_mem_nil _)
    rw [if_pos h1]
    by_cases h2 : "customer_name" ∉ (copyCol s "total_revenue" "price").cols ∧
        "customer" ∈ (copyCol s "total_revenue" "price").cols
    · rw [if_pos h2, copyCol_isEmpty _ _ _ (by simp [copyCol]), copyCol_isEmpty _ _ _ hne]
    · rw [if_neg h2, copyCol_isEmpty _ _ _ hne]
  · rw [if_neg h1]
    by_cases h2 : "customer_name" ∉ s.cols ∧ "customer" ∈ s.cols
    · have hne : s.cols ≠ [] := fun hEq => by
        rw [hEq] at h2; exact absurd h2.2 (List.not_mem_nil _)
      rw [if_pos h2, copyCol_isEmpty _ _ _ hne]
    · rw [if_neg h2]

/-- Inversion principle for a successful sales stage: components of the
returned tuple in terms of the stage's source expressions. -/
theorem salesPart_ok_elim (df : Extract) (sp : ℚ × ℕ × ℚ × ℚ)
    (h : salesPart df = .ok sp) :
    (if df.isEmpty then Except.ok 0 else colNumSum df "price") = .ok sp.1 ∧
      sp.2.1 = df.rows.length ∧
      sp.2.2.1 = (if 0 < df.rows.length then sp.1 / (df.rows.length : ℚ) else 0) ∧
      (if "customer_name" ∈ df.cols ∧ ¬df.isEmpty then groupMeanExc df
        else Except.ok 0) = .ok sp.2.2.2 := by
  unfold salesPart at h
  cases h1 : (if df.isEmpty then Except.ok 0 else colNumSum df "price" :
      Except String ℚ) with
  | error e => rw [h1] at h; exact absurd h (by simp)
  | ok q0 =>
    rw [h1] at h
    cases h2 : (if "customer_name" ∈ df.cols ∧ ¬df.isEmpty then groupMeanExc df
        else Except.ok 0 : Except String ℚ) with
    | error e => rw [h2] at h; exact absurd h (by simp)
    | ok c0 =>
      rw [h2] at h
      injection h with h
      rw [← h]
      exact ⟨rfl, rfl, rfl, rfl⟩

/-! ## Claim C10: the two variants agree -/

/-- C10: the `compute_kpis` functions of the two pipeline variant files are
extensionally equal — on every triple of input extracts both variants
return the same `KPIRecord` or fail with the same error. -/
theorem c10_variants_equal (sales_df top_customers_df monthly_df : Extract) :
    compute_kpis sales_df top_customers_df monthly_df =
      compute_kpis_v2 sales_df top_customers_df monthly_df := rfl

/-! ## Claim C4: monthly-growth failures are absorbed locally -/

/-- C4: any failure inside the monthly-growth computation (for example a
monthly extract missing the `total_revenue` column, as the witness
instantiates) is absorbed: `compute_kpis` behaves exactly as it would on
an empty monthly extract, and any record it returns carries
`monthly_growth_pct = 0.0`; the failure never aborts the KPI computation. -/
theorem c4_monthly_failure_absorbed (s t m : Extract) (e : String)
    (hm : monthlyGrowthExc m = .error e) :
    compute_kpis s t m = compute_kpis s t emptyExtract ∧
      ∀ r, compute_kpis s t m = .ok r → r.monthly_growth_pct = 0 := by
  have hEmpty : monthlyGrowthExc emptyExtract = .ok 0 := rfl
  constructor
  · unfold compute_kpis
    rw [hm, hEmpty]
    rfl
  · intro r hr
    rw [compute_kpis_ok_iff] at hr
    obtain ⟨sp, top, -, -, hrEq⟩ := hr
    rw [hrEq]
    show round2 (exOrZero (monthlyGrowthExc m)) = 0
    rw [hm]
    exact round2_zero

/-- Witness for C4: a non-empty monthly extract without a `total_revenue`
column makes the guarded computation raise KeyError, and `compute_kpis`
then coincides with the empty-monthly run. -/
theorem c4_witness :
    monthlyGrowthExc ⟨["foo"], [[.num 1]]⟩ = .error "KeyError" ∧
      compute_kpis emptyExtract emptyExtract ⟨["foo"], [[.num 1]]⟩ =
        compute_kpis emptyExtract emptyExtract emptyExtract :=
  ⟨rfl, (c4_monthly_failure_absorbed emptyExtract emptyExtract ⟨["foo"], [[.num 1]]⟩
    "KeyError" rfl).1⟩

/-! ## Claim C9: no division by zero in `avg_order_value` -/

/-- C9: whenever `compute_kpis` returns a record, `total_orders` is the
sales row count; with an empty sales extract (`total_orders = 0`) the
returned `avg_order_value` is `0.0` taken from the guarded branch (no
division), and with `total_orders > 0` it is the rounded quotient of the
raw total revenue by `total_orders`. -/
theorem c9_avg_order_value_safe (s t m : Extract) (r : KPIRecord)
    (hr : compute_kpis s t m = .ok r) :
    r.total_orders = s.rows.length ∧
      ∃ q, r.total_revenue = round2 q ∧
        (r.total_orders = 0 → r.avg_order_value = 0) ∧
        (0 < r.total_orders → r.avg_order_value = round2 (q / (r.total_orders : ℚ))) := by
  rw [compute_kpis_ok_iff] at hr
  obtain ⟨sp, top, hsp, -, hrEq⟩ := hr
  obtain ⟨-, hn, ha, -⟩ := salesPart_ok_elim _ _ hsp
  rw [hrEq]
  refine ⟨by rw [hn, reconcile_rows_length], sp.1, rfl, ?_, ?_⟩
  · intro h0
    have : sp.2.2.1 = 0 := by
      rw [ha, if_neg]
      simp only [hn] at h0 ⊢
      omega
    rw [this, round2_zero]
  · intro hpos
    have : sp.2.2.1 = sp.1 / (sp.2.1 : ℚ) := by
      rw [ha, if_pos]
      · rw [hn]
      · simp only [hn] at hpos ⊢
        omega
    rw [this]

/-! ## Lemmas for the non-negativity invariant -/

/-- A successful column sum over non-negative numeric cells is non-negative. -/
theorem sumCells_ok_nonneg (l : List (Option Value)) (q : ℚ)
    (h : sumCells l = .ok q)
    (hall : ∀ o ∈ l, ∀ x, o = some (Value.num x) → 0 ≤ x) : 0 ≤ q := by
  induction l generalizing q with
  | nil =>
    simp only [sumCells] at h
    injection h with h
    rw [← h]
  | cons o rest ih =>
    match o with
    | some (Value.num x) =>
      simp only [sumCells] at h
      cases hr : sumCells rest with
      | error e => rw [hr] at h; exact absurd h (by simp)
      | ok s =>
        rw [hr] at h
        injection h with h
        rw [← h]
        have hx : 0 ≤ x := hall _ (List.mem_cons_self _ _) x rfl
        have hs : 0 ≤ s := ih s hr fun o ho => hall o (List.mem_cons_of_mem _ ho)
        linarith
    | some (Value.str a) => exact absurd h (by simp [sumCells])
    | none => exact absurd h (by simp [sumCells])

/-- Every price paired up by a successful grouping comes from the price
column's cells. -/
theorem pairUp_ok_snd_mem (ks : List (Option Value)) :
    ∀ (ps : List (Option Value)) (pairs : List (Value × ℚ)),
      pairUp ks ps = .ok pairs → ∀ p ∈ pairs, some (Value.num p.2) ∈ ps := by
  induction ks with
  | nil =>
    intro ps pairs h p hp
    cases ps with
    | nil =>
      simp only [pairUp] at h
      injection h with h
      rw [← h] at hp
      exact absurd hp (List.not_mem_nil _)
    | cons o rest => exact absurd h (by simp [pairUp])
  | cons k ks ih =>
    intro ps pairs h p hp
    match k, ps with
    | none, _ => exact absurd h (by simp [pairUp])
    | some v, [] => exact absurd h (by simp [pairUp])
    | some v, none :: ps' => exact absurd h (by simp [pairUp])
    | some v, some (Value.str a) :: ps' => exact absurd h (by simp [pairUp])
    | some v, some (Value.num x) :: ps' =>
      simp only [pairUp] at h
      cases hr : pairUp ks ps' with
      | error e => rw [hr] at h; exact absurd h (by simp)
      | ok rest =>
        rw [hr] at h
        injection h with h
        rw [← h] at hp
        rcases List.mem_cons.mp hp with rfl | hmem
        · exact List.mem_cons_self _ _
        · exact List.mem_cons_of_mem _ (ih ps' rest hr p hmem)

/-- A successful per-customer mean over non-negative prices is non-negative. -/
theorem groupMeanExc_ok_nonneg (e : Extract) (q : ℚ)
    (h : groupMeanExc e = .ok q)
    (hp : ∀ o ∈ colCells e "price", ∀ x, o = some (Value.num x) → 0 ≤ x) : 0 ≤ q := by
  unfold groupMeanExc at h
  by_cases hmem : "price" ∈ e.cols
  case neg => rw [if_neg hmem] at h; exact absurd h (by simp)
  rw [if_pos hmem] at h
  · cases hpair : pairUp (colCells e "customer_name") (colCells e "price") with
    | error er => rw [hpair] at h; exact absurd h (by simp)
    | ok pairs =>
      rw [hpair] at h
      injection h with h
      rw [← h]
      have hpsum : ∀ k ∈ (pairs.map Prod.fst).dedup, 0 ≤ groupSum pairs k := by
        intro k _
        refine List.sum_nonneg ?_
        intro x hx
        obtain ⟨pr, hpr, rfl⟩ := List.mem_map.mp hx
        have hprm : pr ∈ pairs := List.mem_of_mem_filter hpr
        have hcell := pairUp_ok_snd_mem _ _ _ hpair pr hprm
        exact hp _ hcell _ rfl
      refine div_nonneg (List.sum_nonneg ?_) (by positivity)
      intro x hx
      obtain ⟨k, hk, rfl⟩ := List.mem_map.mp hx
      exact hpsum k hk

/-- Inversion principle for the top-customer stage: the empty case, and in
the non-empty case how the name and the revenue were read off row 0. -/
theorem topPart_ok_elim (t : Extract) (nm : Option Value) (rev : ℚ)
    (h : topPart t = .ok (nm, rev)) :
    (t.isEmpty = true ∧ nm = none ∧ rev = 0) ∨
      (t.isEmpty = false ∧ ∃ row0, t.rows.get? 0 = some row0 ∧
        ((selectRcol t = none ∧ rev = 0) ∨
          (∃ c, selectRcol t = some c ∧ cellAt t row0 c = some (Value.num rev))) ∧
        (("customer_name" ∈ t.cols ∧ ∃ v, cellAt t row0 "customer_name" = some v ∧
            nm = some v) ∨
          ("customer_name" ∉ t.cols ∧ ∃ v, row0.get? 0 = some v ∧ nm = some v))) := by
  unfold topPart at h
  by_cases hEmp : t.isEmpty = true
  · rw [if_pos hEmp] at h
    injection h with h
    exact Or.inl ⟨hEmp, congrArg Prod.fst h.symm, congrArg Prod.snd h.symm⟩
  · rw [if_neg hEmp] at h
    refine Or.inr ⟨Bool.not_eq_true _ ▸ hEmp, ?_⟩
    cases hrow : t.rows.get? 0 with
    | none =>
      have hrowE : exOfOpt (t.rows.get? 0) "IndexError" = (.error "IndexError" :
          Except String (List Value)) := by rw [hrow]; rfl
      rw [hrowE] at h
      exact absurd h (by simp)
    | some row0 =>
      have hrowE : exOfOpt (t.rows.get? 0) "IndexError" = .ok row0 := by rw [hrow]; rfl
      rw [hrowE] at h
      simp only [] at h
      refine ⟨row0, rfl, ?_⟩
      have hname : ∀ v : Value,
          (if "customer_name" ∈ t.cols then exOfOpt (cellAt t row0 "customer_name") "KeyError"
            else exOfOpt (row0.get? 0) "IndexError") = .ok v →
          (("customer_name" ∈ t.cols ∧ ∃ w, cellAt t row0 "customer_name" = some w ∧
              (some v : Option Value) = some w) ∨
            ("customer_name" ∉ t.cols ∧ ∃ w, row0.get? 0 = some w ∧
              (some v : Option Value) = some w)) := by
        intro v hv
        by_cases hcn : "customer_name" ∈ t.cols
        · rw [if_pos hcn] at hv
          cases hc : cellAt t row0 "customer_name" with
          | none => rw [hc] at hv; exact absurd hv (by simp [exOfOpt])
          | some w =>
            rw [hc] at hv
            injection hv with hv
            exact Or.inl ⟨hcn, w, rfl, by rw [hv]⟩
        · rw [if_neg hcn] at hv
          cases hc : row0.get? 0 with
          | none => rw [hc] at hv; exact absurd hv (by simp [exOfOpt])
          | some w =>
            rw [hc] at hv
            injection hv with hv
            exact Or.inr ⟨hcn, w, rfl, by rw [hv]⟩
      cases hn : (if "customer_name" ∈ t.cols then
          exOfOpt (cellAt t row0 "customer_name") "KeyError"
        else exOfOpt (row0.get? 0) "IndexError" : Except String Value) with
      | error er => rw [hn] at h; exact absurd h (by simp)
      | ok v =>
        rw [hn] at h
        cases hsel : selectRcol t with
        | none =>
          rw [hsel] at h
          injection h with h
          have hnm : nm = some v := (congrArg Prod.fst h).symm
          have hrev : rev = 0 := (congrArg Prod.snd h).symm
          refine ⟨Or.inl ⟨rfl, hrev⟩, ?_⟩
          rcases hname v hn with ⟨hcn, w, hw, hvw⟩ | ⟨hcn, w, hw, hvw⟩
          · exact Or.inl ⟨hcn, w, hw, by rw [hnm, Option.some.inj hvw]⟩
          · exact Or.inr ⟨hcn, w, hw, by rw [hnm, Option.some.inj hvw]⟩
        | some c =>
          rw [hsel] at h
          simp only [] at h
          cases hc2 : cellAt t row0 c with
          | none =>
            have : getNumCell t row0 c = .error "KeyError" := by
              unfold getNumCell; rw [hc2]
            rw [this] at h
            exact absurd h (by simp)
          | some w =>
            match w with
            | Value.str a =>
              have : getNumCell t row0 c =
                  .error "ValueError: could not convert string to float" := by
                unfold getNumCell; rw [hc2]
              rw [this] at h
              exact absurd h (by simp)
            | Value.num x =>
              have hg : getNumCell t row0 c = .ok x := by
                unfold getNumCell; rw [hc2]
              rw [hg] at h
              injection h with h
              have hnm : nm = some v := (congrArg Prod.fst h).symm
              have hrev : rev = x := (congrArg Prod.snd h).symm
              refine ⟨Or.inr ⟨c, rfl, by rw [hrev]; exact hc2⟩, ?_⟩
              rcases hname v hn with ⟨hcn, w2, hw, hvw⟩ | ⟨hcn, w2, hw, hvw⟩
              · exact Or.inl ⟨hcn, w2, hw, by rw [hnm, Option.some.inj hvw]⟩
              · exact Or.inr ⟨hcn, w2, hw, by rw [hnm, Option.some.inj hvw]⟩

/-- A cell value read from a row belongs to the row. -/
theorem cellAt_mem_row (e : Extract) (r : List Value) (c : String) (v : Value)
    (h : cellAt e r c = some v) : v ∈ r := by
  unfold cellAt at h
  cases hi : colIdx e.cols c with
  | none => rw [hi] at h; exact absurd h (by simp)
  | some i =>
    rw [hi] at h
    exact List.get?_mem h

/-! ## Claim C2: the non-negativity invariant -/

/-- C2 corrected: when every numeric value of the reconciled sales price
column and of the topCustomers extract is non-negative, every numeric
field of a returned record except `monthly_growth_pct` is non-negative.
(The unrestricted claim fails: a negative price flows straight through,
see the counterexample.) -/
theorem c2_nonneg_amended (s t m : Extract) (r : KPIRecord)
    (hs : ∀ o ∈ colCells (reconcile s) "price", ∀ x, o = some (Value.num x) → 0 ≤ x)
    (ht : ∀ row ∈ t.rows, ∀ v ∈ row, ∀ x, v = Value.num x → 0 ≤ x)
    (hr : compute_kpis s t m = .ok r) :
    0 ≤ r.total_revenue ∧ (0 : ℚ) ≤ (r.total_orders : ℚ) ∧ 0 ≤ r.avg_order_value ∧
      0 ≤ r.avg_revenue_per_customer ∧ 0 ≤ r.top_customer_revenue := by
  rw [compute_kpis_ok_iff] at hr
  obtain ⟨sp, top, hsp, htp, hrEq⟩ := hr
  obtain ⟨h1, hn, ha, h4⟩ := salesPart_ok_elim _ _ hsp
  have htr : 0 ≤ sp.1 := by
    by_cases hEmp : (reconcile s).isEmpty = true
    · rw [if_pos hEmp] at h1
      injection h1 with h1
      rw [← h1]
    · rw [if_neg hEmp] at h1
      unfold colNumSum at h1
      by_cases hpm : "price" ∈ (reconcile s).cols
      · rw [if_pos hpm] at h1
        exact sumCells_ok_nonneg _ _ h1 hs
      · rw [if_neg hpm] at h1
        exact absurd h1 (by simp)
  have haov : 0 ≤ sp.2.2.1 := by
    rw [ha]
    split_ifs
    · exact div_nonneg htr (by positivity)
    · exact le_refl 0
  have harpc : 0 ≤ sp.2.2.2 := by
    by_cases hc : "customer_name" ∈ (reconcile s).cols ∧ ¬(reconcile s).isEmpty
    · rw [if_pos hc] at h4
      exact groupMeanExc_ok_nonneg _ _ h4 hs
    · rw [if_neg hc] at h4
      injection h4 with h4
      rw [← h4]
  have htop : 0 ≤ top.2 := by
    obtain ⟨nm, rev⟩ := top
    rcases topPart_ok_elim t nm rev htp with ⟨-, -, hrev⟩ | ⟨-, row0, hrow0, hrevc, -⟩
    · simp only [hrev, le_refl]
    · rcases hrevc with ⟨-, hrev⟩ | ⟨c, -, hcell⟩
      · simp only [hrev, le_refl]
      · have hvrow : Value.num rev ∈ row0 := cellAt_mem_row _ _ _ _ hcell
        have hrowm : row0 ∈ t.rows := List.get?_mem hrow0
        exact ht row0 hrowm _ hvrow rev rfl
  rw [hrEq]
  exact ⟨round2_nonneg _ htr, by positivity, round2_nonneg _ haov,
    round2_nonneg _ harpc, round2_nonneg _ htop⟩

/-- Counterexample to C2 as stated: a sales extract holding the single
price `-1` makes `compute_kpis` return a record whose `total_revenue`
(and `avg_order_value`) is `-1 < 0`. -/
theorem c2_counterexample :
    compute_kpis ⟨["price"], [[.num (-1)]]⟩ emptyExtract emptyExtract =
      .ok ⟨-1, 1, -1, 0, none, 0, 0⟩ ∧ ((-1 : ℚ) < 0) := by
  constructor
  · norm_num +decide [compute_kpis, reconcile, copyCol, salesPart, colNumSum, sumCells,
      colCells, cellAt, colIdx, groupMeanExc, pairUp, groupSum, topPart, selectRcol,
      firstNumericCol, getNumCell, exOfOpt, monthlyGrowthExc, growthFrom, colComparable, sortRows,
      exOrZero, round2, roundHalfEven, Extract.isEmpty, emptyExtract]
  · norm_num

/-- Witness for the amended C2 at a concrete non-negative input. -/
theorem c2_witness :
    compute_kpis ⟨["customer_name", "price"], [[.str "A", .num 100]]⟩
        ⟨["customer_name", "total_revenue"], [[.str "A", .num 300]]⟩ emptyExtract =
      .ok ⟨100, 1, 100, 100, some (.str "A"), 300, 0⟩ ∧
    (0 ≤ (100 : ℚ) ∧ (0 : ℚ) ≤ ((1 : ℕ) : ℚ) ∧ 0 ≤ (100 : ℚ) ∧ 0 ≤ (100 : ℚ) ∧
      0 ≤ (300 : ℚ)) := by
  have heval : compute_kpis ⟨["customer_name", "price"], [[.str "A", .num 100]]⟩
      ⟨["customer_name", "total_revenue"], [[.str "A", .num 300]]⟩ emptyExtract =
      .ok ⟨100, 1, 100, 100, some (.str "A"), 300, 0⟩ := by
    norm_num +decide [compute_kpis, reconcile, copyCol, salesPart, colNumSum, sumCells,
      colCells, cellAt, colIdx, groupMeanExc, pairUp, groupSum, topPart, selectRcol,
      firstNumericCol, getNumCell, exOfOpt, monthlyGrowthExc, growthFrom, colComparable, sortRows,
      exOrZero, round2, roundHalfEven, Extract.isEmpty, emptyExtract, List.dedup,
      List.pwFilter]
  refine ⟨heval, ?_⟩
  have hs : ∀ o ∈ colCells (reconcile ⟨["customer_name", "price"],
      [[.str "A", .num 100]]⟩) "price", ∀ x, o = some (Value.num x) → 0 ≤ x := by
    intro o ho x hx
    rw [show colCells (reconcile ⟨["customer_name", "price"],
        [[.str "A", .num 100]]⟩) "price" = [some (Value.num 100)] from rfl] at ho
    rcases List.mem_singleton.mp ho with rfl
    injection hx with hx
    injection hx with hx
    rw [← hx]
    norm_num
  have ht : ∀ row ∈ (⟨["customer_name", "total_revenue"],
      [[.str "A", .num 300]]⟩ : Extract).rows, ∀ v ∈ row, ∀ x, v = Value.num x → 0 ≤ x := by
    intro row hrow v hv x hx
    rw [show (⟨["customer_name", "total_revenue"],
        [[.str "A", .num 300]]⟩ : Extract).rows = [[Value.str "A", Value.num 300]]
      from rfl] at hrow
    rcases List.mem_singleton.mp hrow with rfl
    fin_cases hv
    · exact absurd hx (by simp)
    · injection hx with hx
      rw [← hx]
      norm_num
  have hcon := c2_nonneg_amended _ _ _ _ hs ht heval
  exact hcon

/-! ## Claim C1: `total_revenue` -/

/-- C1 corrected: whenever the reconciled sales extract has a `price`
column and `compute_kpis` returns a record, `total_revenue` is the
rounded sum of the price column (`0.0` for an empty extract); the
unrestricted claim fails because a non-empty extract without a price
column faults instead of yielding `0.0`, see the counterexample. -/
theorem c1_total_revenue_amended :
    (∀ s t m r, "price" ∈ (reconcile s).cols → compute_kpis s t m = .ok r →
      ∃ q, sumCells (colCells (reconcile s) "price") = .ok q ∧
        r.total_revenue = round2 q) ∧
    (∀ s t m r, s.isEmpty = true → compute_kpis s t m = .ok r →
      r.total_revenue = 0) := by
  constructor
  · intro s t m r hpm hr
    rw [compute_kpis_ok_iff] at hr
    obtain ⟨sp, top, hsp, -, hrEq⟩ := hr
    obtain ⟨h1, -, -, -⟩ := salesPart_ok_elim _ _ hsp
    by_cases hEmp : (reconcile s).isEmpty = true
    · rw [if_pos hEmp] at h1
      injection h1 with h1
      have hcols : (reconcile s).cols ≠ [] := fun hc => by
        rw [hc] at hpm; exact absurd hpm (List.not_mem_nil _)
      have hrows : (reconcile s).rows = [] := by
        unfold Extract.isEmpty at hEmp
        simp only [Bool.or_eq_true, List.isEmpty_iff] at hEmp
        rcases hEmp with hh | hh
        · exact hh
        · exact absurd hh hcols
      refine ⟨0, ?_, ?_⟩
      · unfold colCells
        rw [hrows]
        rfl
      · rw [hrEq]
        show round2 sp.1 = round2 0
        rw [← h1]
    · rw [if_neg hEmp] at h1
      unfold colNumSum at h1
      rw [if_pos hpm] at h1
      exact ⟨sp.1, h1, by rw [hrEq]⟩
  · intro s t m r hEmp hr
    rw [compute_kpis_ok_iff] at hr
    obtain ⟨sp, top, hsp, -, hrEq⟩ := hr
    obtain ⟨h1, -, -, -⟩ := salesPart_ok_elim _ _ hsp
    have hre : (reconcile s).isEmpty = true := by rw [reconcile_isEmpty]; exact hEmp
    rw [if_pos hre] at h1
    injection h1 with h1
    rw [hrEq]
    show round2 sp.1 = 0
    rw [← h1]
    exact round2_zero

/-- Counterexample to C1 as stated: a non-empty sales extract with neither
`price` nor `total_revenue` raises KeyError instead of yielding
`total_revenue = 0.0`. -/
theorem c1_counterexample :
    compute_kpis ⟨["foo"], [[.num 1]]⟩ emptyExtract emptyExtract =
      .error "KeyError" := rfl

/-- Witness for the amended C1: two prices 100 and 200 sum to 300. -/
theorem c1_witness :
    compute_kpis ⟨["price"], [[.num 100], [.num 200]]⟩ emptyExtract emptyExtract =
      .ok ⟨300, 2, 150, 0, none, 0, 0⟩ ∧
    ∃ q, sumCells (colCells (reconcile ⟨["price"], [[.num 100], [.num 200]]⟩) "price") =
        .ok q ∧
      (⟨300, 2, 150, 0, none, 0, 0⟩ : KPIRecord).total_revenue = round2 q := by
  have heval : compute_kpis ⟨["price"], [[.num 100], [.num 200]]⟩ emptyExtract
      emptyExtract = .ok ⟨300, 2, 150, 0, none, 0, 0⟩ := by
    norm_num +decide [compute_kpis, reconcile, copyCol, salesPart, colNumSum, sumCells,
      colCells, cellAt, colIdx, groupMeanExc, pairUp, groupSum, topPart, selectRcol,
      firstNumericCol, getNumCell, exOfOpt, monthlyGrowthExc, growthFrom, colComparable, sortRows,
      exOrZero, round2, roundHalfEven, Extract.isEmpty, emptyExtract]
  exact ⟨heval, c1_total_revenue_amended.1 _ _ _ _ (by decide) heval⟩

/-- Witness for C9: two orders of 100 and 200 give `avg_order_value = 150`. -/
theorem c9_witness :
    compute_kpis ⟨["price"], [[.num 100], [.num 200]]⟩ ⟨["x"], []⟩ emptyExtract =
      .ok ⟨300, 2, 150, 0, none, 0, 0⟩ ∧
    ((2 : ℕ) = (⟨["price"], [[.num 100], [.num 200]]⟩ : Extract).rows.length ∧
      ∃ q, (300 : ℚ) = round2 q ∧
        ((2 : ℕ) = 0 → (150 : ℚ) = 0) ∧
        (0 < (2 : ℕ) → (150 : ℚ) = round2 (q / ((2 : ℕ) : ℚ)))) := by
  have heval : compute_kpis ⟨["price"], [[.num 100], [.num 200]]⟩ ⟨["x"], []⟩
      emptyExtract = .ok ⟨300, 2, 150, 0, none, 0, 0⟩ := by
    norm_num +decide [compute_kpis, reconcile, copyCol, salesPart, colNumSum, sumCells,
      colCells, cellAt, colIdx, groupMeanExc, pairUp, groupSum, topPart, selectRcol,
      firstNumericCol, getNumCell, exOfOpt, monthlyGrowthExc, growthFrom, colComparable, sortRows,
      exOrZero, round2, roundHalfEven, Extract.isEmpty, emptyExtract]
  have hcon := c9_avg_order_value_safe _ _ _ _ heval
  exact ⟨heval, hcon⟩

/-! ## Claim C3: the monthly-growth rule -/

/-- The numeric value of a cell (exact under the numeric-cells hypotheses
it is used with). -/
def cellNumD (o : Option Value) : ℚ :=
  match o with
  | some (Value.num q) => q
  | _ => 0

/-- The claim's `last`: `total_revenue` of the final row of `rs`. -/
def lastTR (e : Extract) (rs : List (List Value)) : ℚ :=
  match rs.getLast? with
  | some r => cellNumD (cellAt e r "total_revenue")
  | none => 0

/-- The claim's `prev`: `total_revenue` of the second-to-last row of `rs`,
or `last` itself when only one row exists. -/
def prevTR (e : Extract) (rs : List (List Value)) : ℚ :=
  if 1 < rs.length then
    match rs.get? (rs.length - 2) with
    | some r => cellNumD (cellAt e r "total_revenue")
    | none => 0
  else lastTR e rs

/-- The claim's growth formula over a row order `rs`. -/
def growthSpec (e : Extract) (rs : List (List Value)) : ℚ :=
  if prevTR e rs ≠ 0 then (lastTR e rs - prevTR e rs) / prevTR e rs * 100 else 0

/-- Ascending `(year, month)` order between two rows with numeric keys. -/
def qKeyLe (e : Extract) (r1 r2 : List Value) : Prop :=
  cellNumD (cellAt e r1 "year") < cellNumD (cellAt e r2 "year") ∨
    (cellNumD (cellAt e r1 "year") = cellNumD (cellAt e r2 "year") ∧
      cellNumD (cellAt e r1 "month") ≤ cellNumD (cellAt e r2 "month"))

/-- Totality of `vleB`. -/
theorem vleB_total (a b : Value) : vleB a b = true ∨ vleB b a = true := by
  cases a <;> cases b <;> simp [vleB] <;> exact le_total _ _

/-- Transitivity of `vleB`. -/
theorem vleB_trans (a b c : Value) (h1 : vleB a b = true) (h2 : vleB b c = true) :
    vleB a c = true := by
  cases a <;> cases b <;> cases c <;> simp_all [vleB] <;> exact le_trans h1 h2

/-- Antisymmetry of `vleB`. -/
theorem vleB_antisymm (a b : Value) (h1 : vleB a b = true) (h2 : vleB b a = true) :
    a = b := by
  match a, b with
  | Value.num x, Value.num y =>
    exact congrArg Value.num (le_antisymm (of_decide_eq_true h1) (of_decide_eq_true h2))
  | Value.str x, Value.str y =>
    exact congrArg Value.str (le_antisymm (of_decide_eq_true h1) (of_decide_eq_true h2))
  | Value.num x, Value.str y => exact absurd h2 (by simp [vleB])
  | Value.str x, Value.num y => exact absurd h1 (by simp [vleB])

/-- The lexicographic key comparison is total. -/
theorem keyLeB_total (k1 k2 : Value × Value) :
    keyLeB k1 k2 = true ∨ keyLeB k2 k1 = true := by
  unfold keyLeB
  by_cases e : k1.1 = k2.1
  · rw [if_pos e, if_pos e.symm]
    exact vleB_total _ _
  · rw [if_neg e, if_neg (Ne.symm e)]
    exact vleB_total _ _

/-- The lexicographic key comparison is transitive. -/
theorem keyLeB_trans (k1 k2 k3 : Value × Value)
    (h1 : keyLeB k1 k2 = true) (h2 : keyLeB k2 k3 = true) : keyLeB k1 k3 = true := by
  unfold keyLeB at *
  by_cases e12 : k1.1 = k2.1
  · rw [if_pos e12] at h1
    by_cases e23 : k2.1 = k3.1
    · rw [if_pos e23] at h2
      rw [if_pos (e12.trans e23)]
      exact vleB_trans _ _ _ h1 h2
    · rw [if_neg e23] at h2
      have e13 : k1.1 ≠ k3.1 := by rw [e12]; exact e23
      rw [if_neg e13, e12]
      exact h2
  · rw [if_neg e12] at h1
    by_cases e23 : k2.1 = k3.1
    · rw [if_pos e23] at h2
      have e13 : k1.1 ≠ k3.1 := fun h => e12 (h.trans e23.symm)
      rw [if_neg e13, ← e23]
      exact h1
    · rw [if_neg e23] at h2
      by_cases e13 : k1.1 = k3.1
      · exfalso
        rw [← e13] at h2
        exact e12 (vleB_antisymm _ _ h1 h2)
      · rw [if_neg e13]
        exact vleB_trans _ _ _ h1 h2

instance (e : Extract) : IsTotal (List Value) (rowLe e) :=
  ⟨fun a b => keyLeB_total (rowKey e a) (rowKey e b)⟩

instance (e : Extract) : IsTrans (List Value) (rowLe e) :=
  ⟨fun a b c h1 h2 => keyLeB_trans _ _ _ h1 h2⟩

/-- On rows whose `year` and `month` cells are numeric, the sort order
used by the embedding is the ascending numeric `(year, month)` order. -/
theorem rowLe_to_qKeyLe (e : Extract) (r1 r2 : List Value)
    (y1 y2 m1 m2 : ℚ)
    (hy1 : cellAt e r1 "year" = some (Value.num y1))
    (hy2 : cellAt e r2 "year" = some (Value.num y2))
    (hm1 : cellAt e r1 "month" = some (Value.num m1))
    (hm2 : cellAt e r2 "month" = some (Value.num m2))
    (h : rowLe e r1 r2) : qKeyLe e r1 r2 := by
  unfold rowLe rowKey at h
  rw [hy1, hy2, hm1, hm2] at h
  simp only [Option.getD_some] at h
  unfold qKeyLe
  rw [hy1, hy2, hm1, hm2]
  simp only [cellNumD]
  unfold keyLeB at h
  by_cases hyy : y1 = y2
  · right
    refine ⟨hyy, ?_⟩
    rw [if_pos (show (Value.num y1, Value.num m1).1 = (Value.num y2, Value.num m2).1 by
      simp [hyy])] at h
    simpa [vleB] using h
  · left
    rw [if_neg (show ¬(Value.num y1, Value.num m1).1 = (Value.num y2, Value.num m2).1 by
      simp [hyy])] at h
    simp only [vleB, decide_eq_true_eq] at h
    exact lt_of_le_of_ne h hyy

/-- Evaluation of the last/prev/growth tail on a non-empty extract with a
numeric `total_revenue` column: it returns exactly the claim's formula
over the extract's row order. -/
theorem growthFrom_eval (e : Extract)
    (htr : "total_revenue" ∈ e.cols)
    (hrows : e.rows ≠ [])
    (hv : ∀ o ∈ colCells e "total_revenue", ∃ x, o = some (Value.num x)) :
    growthFrom e = .ok (growthSpec e e.rows) := by
  have hcols : e.cols ≠ [] := fun hc => by
    rw [hc] at htr; exact absurd htr (List.not_mem_nil _)
  have hne : ¬(e.isEmpty = true) := by
    unfold Extract.isEmpty
    cases hr : e.rows with
    | nil => exact absurd hr hrows
    | cons a l =>
      cases hc : e.cols with
      | nil => exact absurd hc hcols
      | cons b l2 => simp
  have hcell : ∀ row ∈ e.rows, getNumCell e row "total_revenue" =
      .ok (cellNumD (cellAt e row "total_revenue")) := by
    intro row hrow
    obtain ⟨x, hx⟩ := hv (cellAt e row "total_revenue")
      (List.mem_map_of_mem _ hrow)
    unfold getNumCell
    rw [hx]
    simp [cellNumD, hx]
  obtain ⟨lastRow, hlast⟩ : ∃ lr, e.rows.getLast? = some lr := by
    cases hg : e.rows.getLast? with
    | none => exact absurd (List.getLast?_eq_none_iff.mp hg) hrows
    | some lr => exact ⟨lr, rfl⟩
  have hlastm : lastRow ∈ e.rows := List.mem_of_mem_getLast? hlast
  have hlastTR : lastTR e e.rows = cellNumD (cellAt e lastRow "total_revenue") := by
    unfold lastTR
    rw [hlast]
  unfold growthFrom
  rw [if_neg hne]
  rw [show exOfOpt e.rows.getLast? "IndexError" = .ok lastRow by rw [hlast]; rfl]
  simp only []
  rw [hcell lastRow hlastm]
  simp only []
  by_cases hlen : 1 < e.rows.length
  · obtain ⟨prevRow, hprev⟩ : ∃ pr, e.rows.get? (e.rows.length - 2) = some pr := by
      have hidx : e.rows.length - 2 < e.rows.length := by omega
      exact ⟨e.rows.get ⟨_, hidx⟩, List.get?_eq_get hidx⟩
    have hprevm : prevRow ∈ e.rows := List.get?_mem hprev
    have hprevTR : prevTR e e.rows = cellNumD (cellAt e prevRow "total_revenue") := by
      unfold prevTR
      rw [if_pos hlen, hprev]
    rw [show (if 1 < e.rows.length then
        (match exOfOpt (e.rows.get? (e.rows.length - 2)) "IndexError" with
         | .error er => .error er
         | .ok prevRow => getNumCell e prevRow "total_revenue")
      else .ok (cellNumD (cellAt e lastRow "total_revenue")) : Except String ℚ) =
        .ok (cellNumD (cellAt e prevRow "total_revenue")) by
      rw [if_pos hlen]
      rw [show exOfOpt (e.rows.get? (e.rows.length - 2)) "IndexError" = .ok prevRow by
        rw [hprev]; rfl]
      exact hcell prevRow hprevm]
    simp only []
    unfold growthSpec
    rw [hlastTR, hprevTR]
    split_ifs with hz
    · rfl
    · rfl
  · have hprevTR : prevTR e e.rows = cellNumD (cellAt e lastRow "total_revenue") := by
      unfold prevTR
      rw [if_neg hlen, hlastTR]
    rw [show (if 1 < e.rows.length then
        (match exOfOpt (e.rows.get? (e.rows.length - 2)) "IndexError" with
         | .error er => .error er
         | .ok prevRow => getNumCell e prevRow "total_revenue")
      else .ok (cellNumD (cellAt e lastRow "total_revenue")) : Except String ℚ) =
        .ok (cellNumD (cellAt e lastRow "total_revenue")) from if_neg hlen]
    simp only []
    unfold growthSpec
    rw [hlastTR, hprevTR]
    split_ifs with hz
    · rfl
    · rfl

/-- All-numeric columns pass the sortability check. -/
theorem colComparable_of_num (e : Extract) (c : String)
    (h : ∀ o ∈ colCells e c, ∃ x, o = some (Value.num x)) :
    colComparable e c = true := by
  unfold colComparable
  have : (colCells e c).all cellNumB = true := by
    rw [List.all_eq_true]
    intro o ho
    obtain ⟨x, hx⟩ := h o ho
    rw [hx]
    rfl
  rw [this]
  rfl

/-- The `monthly_growth_pct` field of any returned record is the rounded
result of the guarded growth computation. -/
theorem monthly_growth_field (m : Extract) (q : ℚ)
    (h : monthlyGrowthExc m = .ok q) :
    ∀ s t r, compute_kpis s t m = .ok r → r.monthly_growth_pct = round2 q := by
  intro s t r hr
  rw [compute_kpis_ok_iff] at hr
  obtain ⟨sp, top, -, -, hrEq⟩ := hr
  rw [hrEq]
  show round2 (exOrZero (monthlyGrowthExc m)) = round2 q
  rw [h]
  rfl

/-- C3: on a monthly extract with a numeric `total_revenue` column, when
numeric `year` and `month` columns exist the rows are reordered into an
ascending `(year, month)` permutation `ms` and the growth is the claim's
`(last - prev) / prev * 100` formula over `ms` (with `prev = 0` giving
`0.0`), rounded into `monthly_growth_pct`; when the two sort columns do
not both exist, the given row order is used instead. -/
theorem c3_monthly_growth :
    (∀ m : Extract,
      "total_revenue" ∈ m.cols → m.rows ≠ [] →
      (∀ o ∈ colCells m "total_revenue", ∃ x, o = some (Value.num x)) →
      "year" ∈ m.cols → "month" ∈ m.cols →
      (∀ o ∈ colCells m "year", ∃ x, o = some (Value.num x)) →
      (∀ o ∈ colCells m "month", ∃ x, o = some (Value.num x)) →
      ∃ ms : List (List Value), ms.Perm m.rows ∧ ms.Pairwise (qKeyLe m) ∧
        monthlyGrowthExc m = .ok (growthSpec m ms) ∧
        ∀ s t r, compute_kpis s t m = .ok r →
          r.monthly_growth_pct = round2 (growthSpec m ms)) ∧
    (∀ m : Extract,
      "total_revenue" ∈ m.cols → m.rows ≠ [] →
      (∀ o ∈ colCells m "total_revenue", ∃ x, o = some (Value.num x)) →
      ¬("year" ∈ m.cols ∧ "month" ∈ m.cols) →
      monthlyGrowthExc m = .ok (growthSpec m m.rows) ∧
      ∀ s t r, compute_kpis s t m = .ok r →
        r.monthly_growth_pct = round2 (growthSpec m m.rows)) := by
  constructor
  · intro m htr hrows hv hy hmo hyv hmv
    refine ⟨(sortRows m).rows, List.perm_insertionSort _ _, ?_, ?_⟩
    · have hsorted : (sortRows m).rows.Pairwise (rowLe m) :=
        List.sorted_insertionSort (rowLe m) m.rows
      refine hsorted.imp_of_mem ?_
      intro a b ha hb hle
      have ham : a ∈ m.rows := (List.perm_insertionSort (rowLe m) m.rows).mem_iff.mp ha
      have hbm : b ∈ m.rows := (List.perm_insertionSort (rowLe m) m.rows).mem_iff.mp hb
      obtain ⟨y1, hy1⟩ := hyv _ (List.mem_map_of_mem _ ham)
      obtain ⟨y2, hy2⟩ := hyv _ (List.mem_map_of_mem _ hbm)
      obtain ⟨m1, hm1⟩ := hmv _ (List.mem_map_of_mem _ ham)
      obtain ⟨m2, hm2⟩ := hmv _ (List.mem_map_of_mem _ hbm)
      exact rowLe_to_qKeyLe m a b y1 y2 m1 m2 hy1 hy2 hm1 hm2 hle
    · have hgrow : monthlyGrowthExc m = growthFrom (sortRows m) := by
        unfold monthlyGrowthExc
        rw [if_pos ⟨hy, hmo⟩]
        rw [if_pos (by rw [colComparable_of_num m "year" hyv,
          colComparable_of_num m "month" hmv]; rfl)]
      have hv' : ∀ o ∈ colCells (sortRows m) "total_revenue",
          ∃ x, o = some (Value.num x) := by
        intro o ho
        obtain ⟨r, hr, hcell⟩ := List.mem_map.mp ho
        have hrm : r ∈ m.rows :=
          (List.perm_insertionSort (rowLe m) m.rows).mem_iff.mp hr
        rw [← hcell]
        exact hv _ (List.mem_map_of_mem _ hrm)
      have hrows' : (sortRows m).rows ≠ [] := by
        intro hc
        have := (List.perm_insertionSort (rowLe m) m.rows).length_eq
        rw [show (sortRows m).rows = List.insertionSort (rowLe m) m.rows from rfl]
          at hc
        rw [hc] at this
        exact hrows (List.length_eq_zero.mp this.symm)
      have heval : growthFrom (sortRows m) = .ok (growthSpec m (sortRows m).rows) :=
        growthFrom_eval (sortRows m) htr hrows' hv'
      rw [hgrow, heval]
      exact ⟨rfl, monthly_growth_field m _ (by rw [hgrow, heval])⟩
  · intro m htr hrows hv hnb
    have hgrow : monthlyGrowthExc m = growthFrom m := by
      unfold monthlyGrowthExc
      rw [if_neg hnb]
    have heval := growthFrom_eval m htr hrows hv
    rw [hgrow, heval]
    exact ⟨rfl, monthly_growth_field m _ (by rw [hgrow, heval])⟩

/-- The spec's two-row monthly example: 2024-11 → 100, 2024-12 → 150. -/
def mExample3 : Extract :=
  ⟨["year", "month", "total_revenue"],
    [[.num 2024, .num 11, .num 100], [.num 2024, .num 12, .num 150]]⟩

/-- Witness for C3: on the spec's example the hypotheses hold, the sorted
growth rule applies, and `monthly_growth_pct` comes out as `50.0`. -/
theorem c3_witness :
    ("total_revenue" ∈ mExample3.cols ∧ mExample3.rows ≠ []) ∧
    (∃ ms : List (List Value), ms.Perm mExample3.rows ∧
      ms.Pairwise (qKeyLe mExample3) ∧
      monthlyGrowthExc mExample3 = .ok (growthSpec mExample3 ms) ∧
      ∀ s t r, compute_kpis s t mExample3 = .ok r →
        r.monthly_growth_pct = round2 (growthSpec mExample3 ms)) ∧
    compute_kpis emptyExtract emptyExtract mExample3 =
      .ok ⟨0, 0, 0, 0, none, 0, 50⟩ := by
  refine ⟨⟨by decide, by decide⟩, ?_, ?_⟩
  · refine c3_monthly_growth.1 mExample3 (by decide) (by decide) ?_ (by decide)
      (by decide) ?_ ?_
    · intro o ho
      rw [show colCells mExample3 "total_revenue" =
        [some (Value.num 100), some (Value.num 150)] from rfl] at ho
      fin_cases ho
      · exact ⟨100, rfl⟩
      · exact ⟨150, rfl⟩
    · intro o ho
      rw [show colCells mExample3 "year" =
        [some (Value.num 2024), some (Value.num 2024)] from rfl] at ho
      fin_cases ho
      · exact ⟨2024, rfl⟩
      · exact ⟨2024, rfl⟩
    · intro o ho
      rw [show colCells mExample3 "month" =
        [some (Value.num 11), some (Value.num 12)] from rfl] at ho
      fin_cases ho
      · exact ⟨11, rfl⟩
      · exact ⟨12, rfl⟩
  · norm_num +decide [compute_kpis, reconcile, copyCol, salesPart, colNumSum, sumCells,
      colCells, cellAt, colIdx, groupMeanExc, pairUp, groupSum, topPart, selectRcol,
      firstNumericCol, getNumCell, exOfOpt, monthlyGrowthExc, growthFrom, colComparable,
      sortRows, rowLe, rowKey, keyLeB, vleB, cellNumB, cellStrB, exOrZero, round2,
      roundHalfEven, Extract.isEmpty, emptyExtract, mExample3, List.insertionSort,
      List.orderedInsert]

/-! ## Claim C5: top-customer resolution -/

/-- C5: the revenue column is resolved as `total_revenue`, then
`total_spent`, then the first all-numeric column (`firstNumericCol`,
with revenue `0.0` when even that is absent); the name is row 0's
`customer_name` when that column exists and row 0's first value
otherwise; an empty topCustomers extract gives `(None, 0.0)` without
error. -/
theorem c5_top_customer :
    (∀ t : Extract, t.isEmpty = true → topPart t = .ok (none, 0)) ∧
    (∀ t : Extract, "total_revenue" ∈ t.cols →
      selectRcol t = some "total_revenue") ∧
    (∀ t : Extract, "total_revenue" ∉ t.cols → "total_spent" ∈ t.cols →
      selectRcol t = some "total_spent") ∧
    (∀ t : Extract, "total_revenue" ∉ t.cols → "total_spent" ∉ t.cols →
      selectRcol t = firstNumericCol t) ∧
    (∀ s t m r, compute_kpis s t m = .ok r → t.isEmpty = true →
      r.top_customer_name = none ∧ r.top_customer_revenue = 0) ∧
    (∀ s t m r, compute_kpis s t m = .ok r → t.isEmpty = false →
      ∃ row0, t.rows.get? 0 = some row0 ∧
        ((selectRcol t = none ∧ r.top_customer_revenue = 0) ∨
          (∃ c q, selectRcol t = some c ∧ cellAt t row0 c = some (Value.num q) ∧
            r.top_customer_revenue = round2 q)) ∧
        (("customer_name" ∈ t.cols ∧ ∃ v, cellAt t row0 "customer_name" = some v ∧
            r.top_customer_name = some v) ∨
          ("customer_name" ∉ t.cols ∧ ∃ v, row0.get? 0 = some v ∧
            r.top_customer_name = some v))) := by
  refine ⟨?_, ?_, ?_, ?_, ?_, ?_⟩
  · intro t hE
    unfold topPart
    rw [if_pos hE]
  · intro t h
    unfold selectRcol
    rw [if_pos h]
  · intro t h1 h2
    unfold selectRcol
    rw [if_neg h1, if_pos h2]
  · intro t h1 h2
    unfold selectRcol
    rw [if_neg h1, if_neg h2, if_neg h1]
  · intro s t m r hr hEmp
    rw [compute_kpis_ok_iff] at hr
    obtain ⟨sp, top, hsp, htp, hrEq⟩ := hr
    obtain ⟨nm, rev⟩ := top
    rcases topPart_ok_elim t nm rev htp with ⟨-, hnm, hrev⟩ | ⟨hE, -⟩
    · subst hrEq
      refine ⟨hnm, ?_⟩
      show round2 rev = 0
      rw [hrev]
      exact round2_zero
    · rw [hEmp] at hE
      exact absurd hE (by simp)
  · intro s t m r hr hEmp
    rw [compute_kpis_ok_iff] at hr
    obtain ⟨sp, top, hsp, htp, hrEq⟩ := hr
    obtain ⟨nm, rev⟩ := top
    rcases topPart_ok_elim t nm rev htp with ⟨hE, -⟩ | ⟨-, row0, h0, hrevc, hnamec⟩
    · rw [hEmp] at hE
      exact absurd hE (by simp)
    · subst hrEq
      refine ⟨row0, h0, ?_, ?_⟩
      · rcases hrevc with ⟨hsel, hrev⟩ | ⟨c, hsel, hcell⟩
        · left
          refine ⟨hsel, ?_⟩
          show round2 rev = 0
          rw [hrev]
          exact round2_zero
        · exact Or.inr ⟨c, rev, hsel, hcell, rfl⟩
      · rcases hnamec with ⟨hcn, v, hv, hnm⟩ | ⟨hcn, v, hv, hnm⟩
        · exact Or.inl ⟨hcn, v, hv, hnm⟩
        · exact Or.inr ⟨hcn, v, hv, hnm⟩

/-- Witness for C5 at concrete inputs: the empty extract gives
`(None, 0.0)`, a `total_revenue` column wins the resolution, and on a
one-row extract the record carries the rounded row-0 revenue and the
row-0 `customer_name`. -/
theorem c5_witness :
    topPart emptyExtract = .ok (none, 0) ∧
    selectRcol ⟨["customer_name", "total_revenue"], [[.str "A", .num 300]]⟩ =
      some "total_revenue" ∧
    selectRcol ⟨["customer_name", "total_spent"], [[.str "A", .num 7]]⟩ =
      some "total_spent" ∧
    compute_kpis emptyExtract
        ⟨["customer_name", "total_revenue"], [[.str "A", .num 300]]⟩ emptyExtract =
      .ok ⟨0, 0, 0, 0, some (.str "A"), 300, 0⟩ ∧
    (∃ row0, (⟨["customer_name", "total_revenue"],
        [[.str "A", .num 300]]⟩ : Extract).rows.get? 0 = some row0 ∧
      ((selectRcol ⟨["customer_name", "total_revenue"], [[.str "A", .num 300]]⟩ = none ∧
          (300 : ℚ) = 0) ∨
        (∃ c q, selectRcol ⟨["customer_name", "total_revenue"],
            [[.str "A", .num 300]]⟩ = some c ∧
          cellAt ⟨["customer_name", "total_revenue"], [[.str "A", .num 300]]⟩ row0 c =
            some (Value.num q) ∧ (300 : ℚ) = round2 q)) ∧
      (("customer_name" ∈ (⟨["customer_name", "total_revenue"],
          [[.str "A", .num 300]]⟩ : Extract).cols ∧
          ∃ v, cellAt ⟨["customer_name", "total_revenue"], [[.str "A", .num 300]]⟩
            row0 "customer_name" = some v ∧ (some (Value.str "A") : Option Value) = some v) ∨
        ("customer_name" ∉ (⟨["customer_name", "total_revenue"],
            [[.str "A", .num 300]]⟩ : Extract).cols ∧
          ∃ v, row0.get? 0 = some v ∧ (some (Value.str "A") : Option Value) = some v))) := by
  have heval : compute_kpis emptyExtract
      ⟨["customer_name", "total_revenue"], [[.str "A", .num 300]]⟩ emptyExtract =
      .ok ⟨0, 0, 0, 0, some (.str "A"), 300, 0⟩ := by
    norm_num +decide [compute_kpis, reconcile, copyCol, salesPart, colNumSum, sumCells,
      colCells, cellAt, colIdx, groupMeanExc, pairUp, groupSum, topPart, selectRcol,
      firstNumericCol, getNumCell, exOfOpt, monthlyGrowthExc, growthFrom, colComparable,
      sortRows, exOrZero, round2, roundHalfEven, Extract.isEmpty, emptyExtract]
  refine ⟨c5_top_customer.1 emptyExtract (by decide),
    c5_top_customer.2.1 _ (by decide),
    c5_top_customer.2.2.1 _ (by decide) (by decide),
    heval, ?_⟩
  exact c5_top_customer.2.2.2.2.2 emptyExtract _ emptyExtract _ heval (by decide)

/-! ## Claim C7: `avg_revenue_per_customer` -/

/-- Pairing a fully-present name column with a fully-numeric price column
succeeds and produces exactly the row-wise zip. -/
theorem pairUp_maps (ns : List Value) : ∀ ps : List ℚ, ns.length = ps.length →
    pairUp (ns.map some) (ps.map fun q => some (Value.num q)) = .ok (ns.zip ps) := by
  induction ns with
  | nil =>
    intro ps h
    cases ps with
    | nil => rfl
    | cons p ps' => exact absurd h (by simp)
  | cons n ns ih =>
    intro ps h
    cases ps with
    | nil => exact absurd h (by simp)
    | cons p ps' =>
      simp only [List.map_cons, pairUp, List.zip_cons_cons]
      rw [ih ps' (by simpa using h)]

/-- C7 corrected: when the reconciled sales extract is non-empty with a
`customer_name` column of present cells and a `price` column of numeric
cells, a returned record's `avg_revenue_per_customer` is the rounded
mean, over the distinct customer names, of the per-customer price sums;
it is `0.0` whenever `customer_name` is absent or the extract is empty
(and a record is returned at all).  The unrestricted claim fails because
a non-empty extract with `customer_name` but no price column faults,
see the counterexample. -/
theorem c7_avg_revenue_per_customer_amended :
    (∀ s t m r (ns : List Value) (ps : List ℚ),
      "customer_name" ∈ (reconcile s).cols →
      (reconcile s).isEmpty = false →
      colCells (reconcile s) "customer_name" = ns.map some →
      colCells (reconcile s) "price" = ps.map (fun q => some (Value.num q)) →
      compute_kpis s t m = .ok r →
      r.avg_revenue_per_customer =
        round2 ((ns.dedup.map (groupSum (ns.zip ps))).sum / (ns.dedup.length : ℚ))) ∧
    (∀ s t m r, ("customer_name" ∉ (reconcile s).cols ∨ (reconcile s).isEmpty = true) →
      compute_kpis s t m = .ok r → r.avg_revenue_per_customer = 0) := by
  constructor
  · intro s t m r ns ps hcn hnE hns hps hr
    rw [compute_kpis_ok_iff] at hr
    obtain ⟨sp, top, hsp, -, hrEq⟩ := hr
    obtain ⟨h1, -, -, h4⟩ := salesPart_ok_elim _ _ hsp
    have hnotE : ¬(reconcile s).isEmpty = true := by rw [hnE]; simp
    have hpm : "price" ∈ (reconcile s).cols := by
      by_cases hpm : "price" ∈ (reconcile s).cols
      · exact hpm
      · rw [if_neg hnotE] at h1
        unfold colNumSum at h1
        rw [if_neg hpm] at h1
        exact absurd h1 (by simp)
    rw [if_pos ⟨hcn, hnotE⟩] at h4
    unfold groupMeanExc at h4
    rw [if_pos hpm, hns, hps] at h4
    have hlen : ns.length = ps.length := by
      have l1 : (colCells (reconcile s) "customer_name").length =
          (reconcile s).rows.length := by simp [colCells]
      have l2 : (colCells (reconcile s) "price").length =
          (reconcile s).rows.length := by simp [colCells]
      rw [hns] at l1
      rw [hps] at l2
      simp only [List.length_map] at l1 l2
      rw [l1, l2]
    rw [pairUp_maps ns ps hlen] at h4
    simp only [] at h4
    rw [List.map_fst_zip ns ps (le_of_eq hlen)] at h4
    injection h4 with h4
    rw [hrEq]
    show round2 sp.2.2.2 = _
    rw [← h4]
  · intro s t m r hc hr
    rw [compute_kpis_ok_iff] at hr
    obtain ⟨sp, top, hsp, -, hrEq⟩ := hr
    obtain ⟨-, -, -, h4⟩ := salesPart_ok_elim _ _ hsp
    have hcond : ¬("customer_name" ∈ (reconcile s).cols ∧ ¬(reconcile s).isEmpty) := by
      rcases hc with hc | hc
      · rintro ⟨h, -⟩
        exact hc h
      · rintro ⟨-, h⟩
        exact h hc
    rw [if_neg hcond] at h4
    injection h4 with h4
    rw [hrEq]
    show round2 sp.2.2.2 = 0
    rw [← h4]
    exact round2_zero

/-- Counterexample to C7 as stated: a one-row sales extract with a
`customer_name` column but no price column raises KeyError on the
revenue sum, so no `avg_revenue_per_customer` is returned at all. -/
theorem c7_counterexample :
    compute_kpis ⟨["customer_name"], [[.str "A"]]⟩ emptyExtract emptyExtract =
      .error "KeyError" := rfl

/-- Witness for the amended C7: the spec's three-row synthetic extract
(customers A, B, A with prices 100, 200, 50) has distinct customers
A and B with sums 150 and 200, whose mean 175 is returned. -/
theorem c7_witness :
    compute_kpis ⟨["customer_name", "price"],
        [[.str "A", .num 100], [.str "B", .num 200], [.str "A", .num 50]]⟩
        emptyExtract emptyExtract =
      .ok ⟨350, 3, 11667/100, 175, none, 0, 0⟩ ∧
    (⟨350, 3, 11667/100, 175, none, 0, 0⟩ : KPIRecord).avg_revenue_per_customer =
      round2 ((([Value.str "A", Value.str "B", Value.str "A"].dedup.map
        (groupSum ([Value.str "A", Value.str "B", Value.str "A"].zip
          [(100 : ℚ), 200, 50]))).sum) /
        (([Value.str "A", Value.str "B", Value.str "A"].dedup.length : ℚ))) := by
  have heval : compute_kpis ⟨["customer_name", "price"],
      [[.str "A", .num 100], [.str "B", .num 200], [.str "A", .num 50]]⟩
      emptyExtract emptyExtract =
      .ok ⟨350, 3, 11667/100, 175, none, 0, 0⟩ := by
    norm_num +decide [compute_kpis, reconcile, copyCol, salesPart, colNumSum, sumCells,
      colCells, cellAt, colIdx, groupMeanExc, pairUp, groupSum, topPart, selectRcol,
      firstNumericCol, getNumCell, exOfOpt, monthlyGrowthExc, growthFrom, colComparable,
      sortRows, exOrZero, round2, roundHalfEven, Extract.isEmpty, emptyExtract,
      List.dedup, List.pwFilter]
  refine ⟨heval, ?_⟩
  exact c7_avg_revenue_per_customer_amended.1
    ⟨["customer_name", "price"],
      [[.str "A", .num 100], [.str "B", .num 200], [.str "A", .num 50]]⟩
    emptyExtract emptyExtract _
    [Value.str "A", Value.str "B", Value.str "A"] [100, 200, 50]
    (by decide) (by decide) rfl rfl heval

/-! ## Claim C8: per-extract failure isolation in `run_pipeline` -/

/-- Looking a view name up in the fetched-extract table yields its
(possibly empty-substituted) extract. -/
theorem run_lookup (fetch : String → Except String Extract) (k : String)
    (hk : k ∈ view_names) :
    ((view_names.map fun v => (v, fetchEff fetch v)).lookup k) =
      some (fetchEff fetch k) := by
  fin_cases hk <;> rfl

/-- C8 corrected: when the fetch of a named view fails, `run_pipeline`
still exports all six extracts, with the empty extract substituted for
the failed view; the KPI stage is invoked on the (empty-substituted)
three required extracts, and the end of the run — the `kpi_summary`
export — completes exactly when `compute_kpis` succeeds on those inputs.
(The unrestricted "never aborts" claim fails: a successfully fetched
poisonous sales extract still aborts the KPI stage, see the
counterexample.) -/
theorem c8_failure_isolation_amended (fetch : String → Except String Extract)
    (v e : String) (hv : v ∈ view_names) (hf : fetch v = .error e) :
    (run_pipeline fetch).1 = view_names.map (fun k => (k, fetchEff fetch k)) ∧
    (run_pipeline fetch).1.length = 6 ∧
    ((run_pipeline fetch).1.lookup v) = some emptyExtract ∧
    fetchEff fetch v = emptyExtract ∧
    (run_pipeline fetch).2 = compute_kpis (fetchEff fetch "vw_sales_export")
      (fetchEff fetch "summary_top_customers") (fetchEff fetch "vw_monthly_revenue") ∧
    (∀ rec, compute_kpis (fetchEff fetch "vw_sales_export")
        (fetchEff fetch "summary_top_customers")
        (fetchEff fetch "vw_monthly_revenue") = .ok rec →
      (run_pipeline fetch).2 = .ok rec) := by
  have hEff : fetchEff fetch v = emptyExtract := by
    unfold fetchEff
    rw [hf]
  have hkpi : (run_pipeline fetch).2 = compute_kpis (fetchEff fetch "vw_sales_export")
      (fetchEff fetch "summary_top_customers")
      (fetchEff fetch "vw_monthly_revenue") := by
    show compute_kpis (((view_names.map fun k => (k, fetchEff fetch k)).lookup
        "vw_sales_export").getD emptyExtract) _ _ = _
    simp only []
    rw [run_lookup fetch "vw_sales_export" (by decide),
      run_lookup fetch "summary_top_customers" (by decide),
      run_lookup fetch "vw_monthly_revenue" (by decide)]
    rfl
  refine ⟨rfl, rfl, ?_, hEff, hkpi, ?_⟩
  · show ((view_names.map fun k => (k, fetchEff fetch k)).lookup v) = some emptyExtract
    rw [run_lookup fetch v hv, hEff]
  · intro rec h
    rw [hkpi, h]

/-- A fetch-outcome assignment in which `summary_revenue_country` fails
and the sales view is fetched successfully but lacks a price column. -/
def fetch0 : String → Except String Extract := fun v =>
  if v = "vw_sales_export" then .ok ⟨["foo"], [[.num 1]]⟩
  else if v = "summary_revenue_country" then .error "db down"
  else .ok emptyExtract

/-- Counterexample to C8 as stated: with one failing view, the run's KPI
stage can still abort (KeyError from the fetched sales extract), so the
whole run does not complete. -/
theorem c8_counterexample :
    fetch0 "summary_revenue_country" = .error "db down" ∧
      (run_pipeline fetch0).2 = .error "KeyError" := ⟨rfl, rfl⟩

/-- Witness for the amended C8 at the concrete failing assignment. -/
theorem c8_witness :
    ("summary_revenue_country" ∈ view_names) ∧
    (run_pipeline fetch0).1.length = 6 ∧
    ((run_pipeline fetch0).1.lookup "summary_revenue_country") = some emptyExtract ∧
    fetchEff fetch0 "summary_revenue_country" = emptyExtract := by
  have h := c8_failure_isolation_amended fetch0 "summary_revenue_country" "db down"
    (by decide) rfl
  exact ⟨by decide, h.2.1, h.2.2.1, h.2.2.2.1⟩

/-! ## Claim C6: alias-rename equivalence — column-index transfer lemmas -/

/-- A found column index is in range. -/
theorem colIdx_lt (cs : List String) (n : String) :
    ∀ i, colIdx cs n = some i → i < cs.length := by
  induction cs with
  | nil => intro i h; exact absurd h (by simp [colIdx])
  | cons c rest ih =>
    intro i h
    unfold colIdx at h
    by_cases hc : c = n
    · rw [if_pos hc] at h
      injection h with h
      rw [← h]
      simp
    · rw [if_neg hc] at h
      cases hr : colIdx rest n with
      | none => rw [hr] at h; exact absurd h (by simp)
      | some j =>
        rw [hr] at h
        simp only [Option.map_some', Option.some.injEq] at h
        have := ih j hr
        simp only [List.length_cons]
        omega

/-- A column index is found exactly for present columns. -/
theorem colIdx_eq_none_iff (cs : List String) (n : String) :
    colIdx cs n = none ↔ n ∉ cs := by
  induction cs with
  | nil => simp [colIdx]
  | cons c rest ih =>
    unfold colIdx
    by_cases hc : c = n
    · subst hc
      simp
    · rw [if_neg hc]
      simp only [Option.map_eq_none', ih, List.mem_cons]
      constructor
      · intro h hm
        rcases hm with rfl | hm
        · exact hc rfl
        · exact h hm
      · intro h hm
        exact h (Or.inr hm)

/-- Appending a fresh column puts it at the end of the column order. -/
theorem colIdx_append_self (cs : List String) (n : String) (h : n ∉ cs) :
    colIdx (cs ++ [n]) n = some cs.length := by
  induction cs with
  | nil => simp [colIdx]
  | cons c rest ih =>
    have hn : n ∉ rest := fun hm => h (List.mem_cons_of_mem _ hm)
    have hc : c ≠ n := fun hm => h (hm ▸ List.mem_cons_self _ _)
    show colIdx (c :: (rest ++ [n])) n = some (rest.length + 1)
    unfold colIdx
    rw [if_neg hc, ih hn]
    rfl

/-- Appending a column does not move the other columns. -/
theorem colIdx_append_other (cs : List String) (d x : String) (h : x ≠ d) :
    colIdx (cs ++ [d]) x = colIdx cs x := by
  induction cs with
  | nil =>
    show colIdx [d] x = none
    unfold colIdx
    rw [if_neg (Ne.symm h)]
    rfl
  | cons c rest ih =>
    show colIdx (c :: (rest ++ [d])) x = colIdx (c :: rest) x
    unfold colIdx
    rw [ih]

/-- Renaming `src` to a fresh `dst` makes `dst` resolve at `src`'s index. -/
theorem colIdx_rename_self (cs : List String) (src dst : String) (h : dst ∉ cs) :
    colIdx (cs.map fun c => if c = src then dst else c) dst = colIdx cs src := by
  induction cs with
  | nil => rfl
  | cons c rest ih =>
    have hd : dst ∉ rest := fun hm => h (List.mem_cons_of_mem _ hm)
    have hc : c ≠ dst := fun hm => h (hm ▸ List.mem_cons_self _ _)
    by_cases hs : c = src
    · show colIdx ((if c = src then dst else c) :: _) dst = colIdx (c :: rest) src
      rw [if_pos hs]
      unfold colIdx
      rw [if_pos rfl, if_pos hs]
    · show colIdx ((if c = src then dst else c) :: _) dst = colIdx (c :: rest) src
      rw [if_neg hs]
      unfold colIdx
      rw [if_neg hc, if_neg hs, ih hd]

/-- Renaming `src` to `dst` does not move any other column. -/
theorem colIdx_rename_other (cs : List String) (src dst x : String)
    (h1 : x ≠ src) (h2 : x ≠ dst) :
    colIdx (cs.map fun c => if c = src then dst else c) x = colIdx cs x := by
  induction cs with
  | nil => rfl
  | cons c rest ih =>
    show colIdx ((if c = src then dst else c) :: _) x = colIdx (c :: rest) x
    by_cases hs : c = src
    · rw [if_pos hs]
      have hcx : c ≠ x := fun hh => h1 (by rw [← hh, hs])
      unfold colIdx
      rw [if_neg (fun hh => h2 hh.symm), if_neg hcx, ih]
    · rw [if_neg hs]
      unfold colIdx
      by_cases hcx : c = x
      · rw [if_pos hcx, if_pos hcx]
      · rw [if_neg hcx, if_neg hcx, ih]

/-- A well-formed row has a value under every present column. -/
theorem cellAt_isSome (e : Extract) (r : List Value) (c : String)
    (hlen : r.length = e.cols.length) (hc : c ∈ e.cols) :
    ∃ w, cellAt e r c = some w := by
  unfold cellAt
  cases hi : colIdx e.cols c with
  | none => exact absurd ((colIdx_eq_none_iff _ _).mp hi) (by exact fun hh => hh hc)
  | some i =>
    have hlt : i < r.length := by rw [hlen]; exact colIdx_lt _ _ i hi
    exact ⟨r.get ⟨i, hlt⟩, by simp [List.get?_eq_get hlt]⟩

/-- Copying a column: the fresh name reads back exactly the source column. -/
theorem colCells_copy_self (e : Extract) (src dst : String) (hWF : e.WF)
    (hs : src ∈ e.cols) (hd : dst ∉ e.cols) :
    colCells (copyCol e src dst) dst = colCells e src := by
  unfold colCells copyCol
  rw [List.map_map]
  refine List.map_congr_left ?_
  intro r hr
  show cellAt ⟨e.cols ++ [dst], _⟩ (r ++ [(cellAt e r src).getD (Value.num 0)]) dst =
    cellAt e r src
  obtain ⟨w, hw⟩ := cellAt_isSome e r src (hWF r hr) hs
  unfold cellAt
  show (colIdx (e.cols ++ [dst]) dst).bind _ = _
  rw [colIdx_append_self _ _ hd]
  simp only [Option.some_bind]
  rw [List.get?_append_right (by rw [hWF r hr])]
  rw [hWF r hr]
  simp only [Nat.sub_self, List.get?]
  unfold cellAt at hw
  rw [hw]
  rfl

/-- Copying a column leaves every other column's cells unchanged. -/
theorem colCells_copy_other (e : Extract) (src dst x : String) (hWF : e.WF)
    (hx : x ≠ dst) :
    colCells (copyCol e src dst) x = colCells e x := by
  unfold colCells copyCol
  rw [List.map_map]
  refine List.map_congr_left ?_
  intro r hr
  show cellAt ⟨e.cols ++ [dst], _⟩ (r ++ [(cellAt e r src).getD (Value.num 0)]) x =
    cellAt e r x
  unfold cellAt
  show (colIdx (e.cols ++ [dst]) x).bind _ = _
  rw [colIdx_append_other _ _ _ hx]
  cases hi : colIdx e.cols x with
  | none => rfl
  | some i =>
    simp only [Option.some_bind]
    have hlt : i < r.length := by rw [hWF r hr]; exact colIdx_lt _ _ i hi
    rw [List.get?_append hlt]

/-- Renaming a column: the new name reads back the source column. -/
theorem colCells_rename_self (e : Extract) (src dst : String) (hd : dst ∉ e.cols) :
    colCells (renameCol e src dst) dst = colCells e src := by
  unfold colCells renameCol
  refine List.map_congr_left ?_
  intro r hr
  unfold cellAt
  show (colIdx (e.cols.map fun c => if c = src then dst else c) dst).bind _ = _
  rw [colIdx_rename_self _ _ _ hd]

/-- Renaming a column leaves every other column's cells unchanged. -/
theorem colCells_rename_other (e : Extract) (src dst x : String)
    (h1 : x ≠ src) (h2 : x ≠ dst) :
    colCells (renameCol e src dst) x = colCells e x := by
  unfold colCells renameCol
  refine List.map_congr_left ?_
  intro r hr
  unfold cellAt
  show (colIdx (e.cols.map fun c => if c = src then dst else c) x).bind _ = _
  rw [colIdx_rename_other _ _ _ _ h1 h2]

/-- Membership in the columns of a copy. -/
theorem mem_copyCol_cols (e : Extract) (src dst x : String) :
    x ∈ (copyCol e src dst).cols ↔ x ∈ e.cols ∨ x = dst := by
  simp [copyCol]

/-- Membership of a name other than the new one in renamed columns. -/
theorem mem_renameCol_cols_other (e : Extract) (src dst x : String) (h2 : x ≠ dst) :
    x ∈ (renameCol e src dst).cols ↔ (x ∈ e.cols ∧ x ≠ src) := by
  simp only [renameCol, List.mem_map]
  constructor
  · rintro ⟨c, hc, hfc⟩
    by_cases hs : c = src
    · rw [if_pos hs] at hfc
      exact absurd hfc.symm h2
    · rw [if_neg hs] at hfc
      exact ⟨hfc ▸ hc, hfc ▸ hs⟩
  · rintro ⟨hx, hxs⟩
    exact ⟨x, hx, by rw [if_neg hxs]⟩

/-- Membership of the new name in renamed columns. -/
theorem mem_renameCol_cols_self (e : Extract) (src dst : String) (hs : src ∈ e.cols) :
    dst ∈ (renameCol e src dst).cols := by
  simp only [renameCol, List.mem_map]
  exact ⟨src, hs, by rw [if_pos rfl]⟩

/-- Copying preserves well-formedness. -/
theorem copyCol_WF (e : Extract) (src dst : String) (h : e.WF) :
    (copyCol e src dst).WF := by
  intro r hr
  simp only [copyCol, List.mem_map] at hr
  obtain ⟨r0, hr0, rfl⟩ := hr
  simp [copyCol, h r0 hr0]

/-- Renaming preserves well-formedness. -/
theorem renameCol_WF (e : Extract) (src dst : String) (h : e.WF) :
    (renameCol e src dst).WF := by
  intro r hr
  simp only [renameCol] at hr ⊢
  rw [List.length_map]
  exact h r hr

/-- Renaming does not change emptiness. -/
theorem renameCol_isEmpty (e : Extract) (src dst : String) :
    (renameCol e src dst).isEmpty = e.isEmpty := by
  unfold renameCol Extract.isEmpty
  cases e.cols <;> simp

/-- Congruence: `salesPart` reads the sales extract only through its emptiness, row
count, `price`/`customer_name` membership and those two columns' cells;
two extracts agreeing there produce the same sales KPIs. -/
theorem salesPart_congr (d1 d2 : Extract)
    (hE : d1.isEmpty = d2.isEmpty)
    (hL : d1.rows.length = d2.rows.length)
    (hP : ("price" ∈ d1.cols) ↔ ("price" ∈ d2.cols))
    (hC : ("customer_name" ∈ d1.cols) ↔ ("customer_name" ∈ d2.cols))
    (hPc : colCells d1 "price" = colCells d2 "price")
    (hCc : colCells d1 "customer_name" = colCells d2 "customer_name") :
    salesPart d1 = salesPart d2 := by
  have hSum : colNumSum d1 "price" = colNumSum d2 "price" := by
    unfold colNumSum
    by_cases hp : "price" ∈ d1.cols
    · rw [if_pos hp, if_pos (hP.mp hp), hPc]
    · rw [if_neg hp, if_neg (fun hh => hp (hP.mpr hh))]
  have hGm : groupMeanExc d1 = groupMeanExc d2 := by
    unfold groupMeanExc
    by_cases hp : "price" ∈ d1.cols
    · rw [if_pos hp, if_pos (hP.mp hp), hPc, hCc]
    · rw [if_neg hp, if_neg (fun hh => hp (hP.mpr hh))]
  unfold salesPart
  rw [hL, hSum, hE, hGm]
  by_cases hcond : "customer_name" ∈ d1.cols ∧ ¬d2.isEmpty = true
  · rw [if_pos hcond,
      if_pos (show "customer_name" ∈ d2.cols ∧ ¬d2.isEmpty = true from
        ⟨hC.mp hcond.1, hcond.2⟩)]
  · rw [if_neg hcond,
      if_neg (show ¬("customer_name" ∈ d2.cols ∧ ¬d2.isEmpty = true) from
        fun hh => hcond ⟨hC.mpr hh.1, hh.2⟩)]

/-- Renaming `total_revenue` to `price` (when `price` is absent) leaves
`compute_kpis` unchanged. -/
theorem c6_first_part (s t m : Extract) (hWF : s.WF) (hp : "price" ∉ s.cols)
    (htr : "total_revenue" ∈ s.cols) :
    compute_kpis s t m = compute_kpis (renameCol s "total_revenue" "price") t m := by
  have hWF' : (renameCol s "total_revenue" "price").WF := renameCol_WF _ _ _ hWF
  have hWFe1 : (copyCol s "total_revenue" "price").WF := copyCol_WF _ _ _ hWF
  have hprice' : "price" ∈ (renameCol s "total_revenue" "price").cols :=
    mem_renameCol_cols_self s _ _ htr
  have hcolsne : s.cols ≠ [] := List.ne_nil_of_mem htr
  have hcolsne' : (renameCol s "total_revenue" "price").cols ≠ [] := fun hh =>
    hcolsne (by simpa [renameCol, List.map_eq_nil] using hh)
  have hcn1 : ("customer_name" ∈ (copyCol s "total_revenue" "price").cols) ↔
      ("customer_name" ∈ s.cols) := by
    rw [mem_copyCol_cols]
    exact or_iff_left (by decide)
  have hcn2 : ("customer_name" ∈ (renameCol s "total_revenue" "price").cols) ↔
      ("customer_name" ∈ s.cols) := by
    rw [mem_renameCol_cols_other s _ _ _ (by decide)]
    exact and_iff_left (by decide)
  have hcu1 : ("customer" ∈ (copyCol s "total_revenue" "price").cols) ↔
      ("customer" ∈ s.cols) := by
    rw [mem_copyCol_cols]
    exact or_iff_left (by decide)
  have hcu2 : ("customer" ∈ (renameCol s "total_revenue" "price").cols) ↔
      ("customer" ∈ s.cols) := by
    rw [mem_renameCol_cols_other s _ _ _ (by decide)]
    exact and_iff_left (by decide)
  have hr1 : reconcile s =
      (if "customer_name" ∉ (copyCol s "total_revenue" "price").cols ∧
          "customer" ∈ (copyCol s "total_revenue" "price").cols then
        copyCol (copyCol s "total_revenue" "price") "customer" "customer_name"
      else copyCol s "total_revenue" "price") := by
    unfold reconcile
    rw [if_pos (show "price" ∉ s.cols ∧ "total_revenue" ∈ s.cols from ⟨hp, htr⟩)]
  have hr2 : reconcile (renameCol s "total_revenue" "price") =
      (if "customer_name" ∉ (renameCol s "total_revenue" "price").cols ∧
          "customer" ∈ (renameCol s "total_revenue" "price").cols then
        copyCol (renameCol s "total_revenue" "price") "customer" "customer_name"
      else renameCol s "total_revenue" "price") := by
    unfold reconcile
    rw [if_neg (show ¬("price" ∉ (renameCol s "total_revenue" "price").cols ∧
      "total_revenue" ∈ (renameCol s "total_revenue" "price").cols) from
      fun hh => hh.1 hprice')]
  have key : salesPart (reconcile s) =
      salesPart (reconcile (renameCol s "total_revenue" "price")) := by
    rw [hr1, hr2]
    by_cases hc2 : "customer_name" ∉ (copyCol s "total_revenue" "price").cols ∧
        "customer" ∈ (copyCol s "total_revenue" "price").cols
    · rw [if_pos hc2,
        if_pos (show "customer_name" ∉ (renameCol s "total_revenue" "price").cols ∧
            "customer" ∈ (renameCol s "total_revenue" "price").cols from
          ⟨fun hh => hc2.1 (hcn1.mpr (hcn2.mp hh)), hcu2.mpr (hcu1.mp hc2.2)⟩)]
      apply salesPart_congr
      · rw [copyCol_isEmpty _ _ _ (by simp [copyCol]),
          copyCol_isEmpty _ _ _ hcolsne,
          copyCol_isEmpty _ _ _ hcolsne',
          renameCol_isEmpty]
      · simp [copyCol, renameCol]
      · exact iff_of_true
          ((mem_copyCol_cols _ _ _ _).mpr (Or.inl
            ((mem_copyCol_cols _ _ _ _).mpr (Or.inr rfl))))
          ((mem_copyCol_cols _ _ _ _).mpr (Or.inl hprice'))
      · exact iff_of_true
          ((mem_copyCol_cols _ _ _ _).mpr (Or.inr rfl))
          ((mem_copyCol_cols _ _ _ _).mpr (Or.inr rfl))
      · rw [colCells_copy_other _ _ _ _ hWFe1 (by decide),
          colCells_copy_self _ _ _ hWF htr hp,
          colCells_copy_other _ _ _ _ hWF' (by decide),
          colCells_rename_self _ _ _ hp]
      · rw [colCells_copy_self _ _ _ hWFe1 hc2.2 hc2.1,
          colCells_copy_other _ _ _ _ hWF (by decide),
          colCells_copy_self _ _ _ hWF' (hcu2.mpr (hcu1.mp hc2.2))
            (fun hh => hc2.1 (hcn1.mpr (hcn2.mp hh))),
          colCells_rename_other _ _ _ _ (by decide) (by decide)]
    · rw [if_neg hc2,
        if_neg (show ¬("customer_name" ∉ (renameCol s "total_revenue" "price").cols ∧
            "customer" ∈ (renameCol s "total_revenue" "price").cols) from
          fun hh => hc2 ⟨fun h2 => hh.1 (hcn2.mpr (hcn1.mp h2)),
            hcu1.mpr (hcu2.mp hh.2)⟩)]
      apply salesPart_congr
      · rw [copyCol_isEmpty _ _ _ hcolsne, renameCol_isEmpty]
      · simp [copyCol, renameCol]
      · exact iff_of_true ((mem_copyCol_cols _ _ _ _).mpr (Or.inr rfl)) hprice'
      · exact hcn1.trans hcn2.symm
      · rw [colCells_copy_self _ _ _ hWF htr hp, colCells_rename_self _ _ _ hp]
      · rw [colCells_copy_other _ _ _ _ hWF (by decide),
          colCells_rename_other _ _ _ _ (by decide) (by decide)]
  unfold compute_kpis
  rw [key]

/-- Renaming `customer` to `customer_name` (when `customer_name` is
absent) leaves `compute_kpis` unchanged. -/
theorem c6_second_part (s t m : Extract) (hWF : s.WF)
    (hcn : "customer_name" ∉ s.cols) (hcu : "customer" ∈ s.cols) :
    compute_kpis s t m = compute_kpis (renameCol s "customer" "customer_name") t m := by
  have hWF2 : (renameCol s "customer" "customer_name").WF := renameCol_WF _ _ _ hWF
  have hWFe1 : (copyCol s "total_revenue" "price").WF := copyCol_WF _ _ _ hWF
  have hWFe2 : (copyCol (renameCol s "customer" "customer_name")
      "total_revenue" "price").WF := copyCol_WF _ _ _ hWF2
  have hcn2 : "customer_name" ∈ (renameCol s "customer" "customer_name").cols :=
    mem_renameCol_cols_self s _ _ hcu
  have hcolsne : s.cols ≠ [] := List.ne_nil_of_mem hcu
  have hcolsne2 : (renameCol s "customer" "customer_name").cols ≠ [] := fun hh =>
    hcolsne (by simpa [renameCol, List.map_eq_nil] using hh)
  have hpr : ("price" ∈ (renameCol s "customer" "customer_name").cols) ↔
      ("price" ∈ s.cols) := by
    rw [mem_renameCol_cols_other s _ _ _ (by decide)]
    exact and_iff_left (by decide)
  have htr2 : ("total_revenue" ∈ (renameCol s "customer" "customer_name").cols) ↔
      ("total_revenue" ∈ s.cols) := by
    rw [mem_renameCol_cols_other s _ _ _ (by decide)]
    exact and_iff_left (by decide)
  have key : salesPart (reconcile s) =
      salesPart (reconcile (renameCol s "customer" "customer_name")) := by
    by_cases hc1 : "price" ∉ s.cols ∧ "total_revenue" ∈ s.cols
    · have hr1 : reconcile s =
          copyCol (copyCol s "total_revenue" "price") "customer" "customer_name" := by
        unfold reconcile
        rw [if_pos hc1,
          if_pos (show "customer_name" ∉ (copyCol s "total_revenue" "price").cols ∧
              "customer" ∈ (copyCol s "total_revenue" "price").cols from
            ⟨fun hh => by
              rcases (mem_copyCol_cols _ _ _ _).mp hh with hh2 | hh2
              · exact hcn hh2
              · exact absurd hh2 (by decide),
             (mem_copyCol_cols _ _ _ _).mpr (Or.inl hcu)⟩)]
      have hr2 : reconcile (renameCol s "customer" "customer_name") =
          copyCol (renameCol s "customer" "customer_name") "total_revenue" "price" := by
        unfold reconcile
        rw [if_pos (show "price" ∉ (renameCol s "customer" "customer_name").cols ∧
            "total_revenue" ∈ (renameCol s "customer" "customer_name").cols from
          ⟨fun hh => hc1.1 (hpr.mp hh), htr2.mpr hc1.2⟩)]
        rw [if_neg (show ¬("customer_name" ∉ (copyCol
            (renameCol s "customer" "customer_name") "total_revenue" "price").cols ∧
            "customer" ∈ (copyCol (renameCol s "customer" "customer_name")
              "total_revenue" "price").cols) from
          fun hh => hh.1 ((mem_copyCol_cols _ _ _ _).mpr (Or.inl hcn2)))]
      rw [hr1, hr2]
      apply salesPart_congr
      · rw [copyCol_isEmpty _ _ _ (by simp [copyCol]),
          copyCol_isEmpty _ _ _ hcolsne,
          copyCol_isEmpty _ _ _ hcolsne2,
          renameCol_isEmpty]
      · simp [copyCol, renameCol]
      · exact iff_of_true
          ((mem_copyCol_cols _ _ _ _).mpr (Or.inl
            ((mem_copyCol_cols _ _ _ _).mpr (Or.inr rfl))))
          ((mem_copyCol_cols _ _ _ _).mpr (Or.inr rfl))
      · exact iff_of_true
          ((mem_copyCol_cols _ _ _ _).mpr (Or.inr rfl))
          ((mem_copyCol_cols _ _ _ _).mpr (Or.inl hcn2))
      · rw [colCells_copy_other _ _ _ _ hWFe1 (by decide),
          colCells_copy_self _ _ _ hWF hc1.2 hc1.1,
          colCells_copy_self _ _ _ hWF2 (htr2.mpr hc1.2) (fun hh => hc1.1 (hpr.mp hh)),
          colCells_rename_other _ _ _ _ (by decide) (by decide)]
      · rw [colCells_copy_self _ _ _ hWFe1
            ((mem_copyCol_cols _ _ _ _).mpr (Or.inl hcu))
            (fun hh => by
              rcases (mem_copyCol_cols _ _ _ _).mp hh with hh2 | hh2
              · exact hcn hh2
              · exact absurd hh2 (by decide)),
          colCells_copy_other _ _ _ _ hWF (by decide),
          colCells_copy_other _ _ _ _ hWF2 (by decide),
          colCells_rename_self _ _ _ hcn]
    · have hr1 : reconcile s = copyCol s "customer" "customer_name" := by
        unfold reconcile
        rw [if_neg hc1, if_pos (show "customer_name" ∉ s.cols ∧ "customer" ∈ s.cols from
          ⟨hcn, hcu⟩)]
      have hr2 : reconcile (renameCol s "customer" "customer_name") =
          renameCol s "customer" "customer_name" := by
        unfold reconcile
        rw [if_neg (show ¬("price" ∉ (renameCol s "customer" "customer_name").cols ∧
            "total_revenue" ∈ (renameCol s "customer" "customer_name").cols) from
          fun hh => hc1 ⟨fun h2 => hh.1 (hpr.mpr h2), htr2.mp hh.2⟩)]
        rw [if_neg (show ¬("customer_name" ∉ (renameCol s "customer"
            "customer_name").cols ∧ "customer" ∈ (renameCol s "customer"
            "customer_name").cols) from fun hh => hh.1 hcn2)]
      rw [hr1, hr2]
      apply salesPart_congr
      · rw [copyCol_isEmpty _ _ _ hcolsne, renameCol_isEmpty]
      · simp [copyCol, renameCol]
      · rw [mem_copyCol_cols]
        exact (or_iff_left (by decide)).trans hpr.symm
      · exact iff_of_true ((mem_copyCol_cols _ _ _ _).mpr (Or.inr rfl)) hcn2
      · rw [colCells_copy_other _ _ _ _ hWF (by decide),
          colCells_rename_other _ _ _ _ (by decide) (by decide)]
      · rw [colCells_copy_self _ _ _ hWF hcu hcn, colCells_rename_self _ _ _ hcn]
  unfold compute_kpis
  rw [key]

/-- C6: replacing the alias copy by a genuine rename changes nothing —
`compute_kpis` on a sales extract with `total_revenue` (and no `price`)
equals `compute_kpis` on the same extract with that column renamed to
`price`, and likewise for `customer` renamed to `customer_name`. -/
theorem c6_alias_equivalence :
    (∀ s t m : Extract, s.WF → "price" ∉ s.cols → "total_revenue" ∈ s.cols →
      compute_kpis s t m = compute_kpis (renameCol s "total_revenue" "price") t m) ∧
    (∀ s t m : Extract, s.WF → "customer_name" ∉ s.cols → "customer" ∈ s.cols →
      compute_kpis s t m = compute_kpis (renameCol s "customer" "customer_name") t m) :=
  ⟨c6_first_part, c6_second_part⟩

/-- Witness for C6 at concrete extracts, one per rename. -/
theorem c6_witness :
    compute_kpis ⟨["total_revenue", "customer"],
        [[.num 100, .str "A"], [.num 200, .str "B"]]⟩ emptyExtract emptyExtract =
      compute_kpis (renameCol ⟨["total_revenue", "customer"],
        [[.num 100, .str "A"], [.num 200, .str "B"]]⟩ "total_revenue" "price")
        emptyExtract emptyExtract ∧
    compute_kpis ⟨["price", "customer"], [[.num 100, .str "A"]]⟩
        emptyExtract emptyExtract =
      compute_kpis (renameCol ⟨["price", "customer"], [[.num 100, .str "A"]]⟩
        "customer" "customer_name") emptyExtract emptyExtract :=
  ⟨c6_alias_equivalence.1 _ _ _ (by decide) (by decide) (by decide),
    c6_alias_equivalence.2 _ _ _ (by decide) (by decide) (by decide)⟩
